import Mathlib

/-!
Verification development for the saints-gen-bot license system.

The Python source is shallowly embedded: pure helper functions become Lean
functions; the PostgreSQL `licenses` / `shopify_notifications` tables become
lists of records; each SQL statement becomes the corresponding pure list
operation; `datetime.utcnow()` becomes an explicit rational-valued `now`
parameter measured in seconds; Python exceptions that a function catches are
folded into `Option` results, and ones that escape become `Except` errors.
Timestamps and day deltas are rationals (Python datetimes have microsecond
resolution; the microsecond rounding of `timedelta(days=...)` is not modelled,
no claim depends on it).
-/

/-! ## Small Python-semantics utilities -/

/-- Python `int(q)` on a float/Decimal: truncation toward zero. -/
def pyIntTrunc (q : ℚ) : Int :=
  if 0 ≤ q then Int.floor q else -Int.floor (-q)

/-- Python `s.split("-")` on the character list of `s`: splits at every
occurrence of the separator, keeping empty segments, as `str.split` with an
explicit separator does. -/
def pySplitDash : List Char → List (List Char)
  | [] => [[]]
  | c :: rest =>
    if c = '-' then
      [] :: pySplitDash rest
    else
      match pySplitDash rest with
      | [] => [[c]]
      | h :: t => (c :: h) :: t

theorem pySplitDash_ne_nil (l : List Char) : pySplitDash l ≠ [] := by
  induction l with
  | nil => simp [pySplitDash]
  | cons c rest ih =>
    unfold pySplitDash
    by_cases h : c = '-'
    · simp [h]
    · simp only [h, if_false]
      cases hrec : pySplitDash rest with
      | nil => simp
      | cons a t => simp

/-- The number of segments produced by `split("-")` is the number of dashes
plus one. -/
theorem pySplitDash_length (l : List Char) :
    (pySplitDash l).length = l.count '-' + 1 := by
  induction l with
  | nil => simp [pySplitDash]
  | cons c rest ih =>
    unfold pySplitDash
    by_cases h : c = '-'
    · simp [h, List.count_cons, ih]
    · simp only [h, if_false]
      cases hrec : pySplitDash rest with
      | nil => exact absurd hrec (pySplitDash_ne_nil rest)
      | cons a t =>
        rw [hrec] at ih
        simp only [List.length_cons] at ih ⊢
        have hc : rest.count '-' = (c :: rest).count '-' := by
          simp [List.count_cons, h]
        omega

/-- Splitting a concatenation: a dash joins the last segment of the left part
to the first segment of the right part. -/
theorem pySplitDash_append_dash (l r : List Char) (hl : ¬ '-' ∈ l) :
    pySplitDash (l ++ '-' :: r) = l :: pySplitDash r := by
  induction l with
  | nil => simp [pySplitDash]
  | cons c rest ih =>
    simp only [List.mem_cons, not_or] at hl
    unfold pySplitDash
    simp only [List.cons_append]
    have hc : ¬ c = '-' := fun h => hl.1 h.symm
    simp only [hc, if_false]
    rw [ih hl.2]
    cases r <;> rfl

/-! ## UTF-8 (Python `str.encode()` / `bytes.decode()`) -/

/-- UTF-8 encoding of a single scalar value. -/
def utf8EncodeChar (c : Char) : List Nat :=
  let n := c.toNat
  if n < 128 then [n]
  else if n < 2048 then [192 + n / 64, 128 + n % 64]
  else if n < 65536 then [224 + n / 4096, 128 + n / 64 % 64, 128 + n % 64]
  else [240 + n / 262144, 128 + n / 4096 % 64, 128 + n / 64 % 64, 128 + n % 64]

/-- Python `s.encode()`. -/
def utf8Encode (s : List Char) : List Nat :=
  (s.map utf8EncodeChar).flatten

/-- Is `n` a UTF-8 continuation byte? -/
def utf8Cont (n : Nat) : Bool := 128 ≤ n && n < 192

/-- Python `bytes.decode()` (strict UTF-8; `UnicodeDecodeError` becomes
`none`). Overlong encodings, surrogates and out-of-range values are
rejected as CPython does. -/
def utf8Decode : List Nat → Option (List Char)
  | [] => some []
  | b :: rest =>
    if b < 128 then (utf8Decode rest).map (Char.ofNat b :: ·)
    else if b < 194 then none
    else if b < 224 then
      match rest with
      | b2 :: rest2 =>
        if utf8Cont b2 then
          (utf8Decode rest2).map (Char.ofNat ((b - 192) * 64 + (b2 - 128)) :: ·)
        else none
      | [] => none
    else if b < 240 then
      match rest with
      | b2 :: b3 :: rest3 =>
        if utf8Cont b2 && utf8Cont b3 then
          let n := (b - 224) * 4096 + (b2 - 128) * 64 + (b3 - 128)
          if n < 2048 || (55296 ≤ n && n < 57344) then none
          else (utf8Decode rest3).map (Char.ofNat n :: ·)
        else none
      | _ => none
    else if b < 245 then
      match rest with
      | b2 :: b3 :: b4 :: rest4 =>
        if utf8Cont b2 && utf8Cont b3 && utf8Cont b4 then
          let n := (b - 240) * 262144 + (b2 - 128) * 4096 + (b3 - 128) * 64 + (b4 - 128)
          if n < 65536 || 1114111 < n then none
          else (utf8Decode rest4).map (Char.ofNat n :: ·)
        else none
      | _ => none
    else none

/-! ## base64url (Python `base64.urlsafe_b64encode/urlsafe_b64decode`) -/

def b64UrlAlphabet : List Char :=
  "ABCDEFGHIJKLMNOPQRSTUVWXYZabcdefghijklmnopqrstuvwxyz0123456789-_".data

def b64Chr (n : Nat) : Char := b64UrlAlphabet.getD n 'A'

/-- `base64.urlsafe_b64encode(bytes).decode().rstrip("=")` — unpadded
url-safe base64, exactly as both `generate_license_key` and
`generate_signed_token` produce it. -/
def b64UrlEncodeNoPad : List Nat → List Char
  | [] => []
  | [a] => [b64Chr (a / 4), b64Chr (a % 4 * 16)]
  | [a, b] => [b64Chr (a / 4), b64Chr (a % 4 * 16 + b / 16), b64Chr (b % 16 * 4)]
  | a :: b :: c :: rest =>
    b64Chr (a / 4) :: b64Chr (a % 4 * 16 + b / 16) :: b64Chr (b % 16 * 4 + c / 64)
      :: b64Chr (c % 64) :: b64UrlEncodeNoPad rest

def b64UrlCharVal (c : Char) : Option Nat :=
  b64UrlAlphabet.findIdx? (· = c) |>.map id

/-- Decode cleaned base64url input by quads; `'='` is only legal as trailing
padding of the final quad (`binascii.Error` otherwise becomes `none`). -/
def b64DecodeQuads : List Char → Option (List Nat)
  | [] => some []
  | a :: b :: c :: d :: rest =>
    match b64UrlCharVal a, b64UrlCharVal b with
    | some va, some vb =>
      if c = '=' then
        if d = '=' && rest.isEmpty then some [va * 4 + vb / 16] else none
      else
        match b64UrlCharVal c with
        | some vc =>
          if d = '=' then
            if rest.isEmpty then some [va * 4 + vb / 16, vb % 16 * 16 + vc / 4] else none
          else
            match b64UrlCharVal d with
            | some vd =>
              (b64DecodeQuads rest).map
                (fun t => (va * 4 + vb / 16) :: (vb % 16 * 16 + vc / 4) :: (vc % 4 * 64 + vd) :: t)
            | none => none
        | none => none
    | _, _ => none
  | _ => none

/-- Python `base64.urlsafe_b64decode` on an already-padded string: characters
outside the (url-safe) alphabet and `'='` are discarded first (the
`validate=False` default), then the length must be a multiple of 4. -/
def pyUrlsafeB64Decode (l : List Char) : Option (List Nat) :=
  let kept := l.filter (fun c => (b64UrlCharVal c).isSome || c = '=')
  if kept.length % 4 = 0 then b64DecodeQuads kept else none

/-! ## Hex digests -/

def hexDigitChar (n : Nat) : Char :=
  match n with
  | 0 => '0' | 1 => '1' | 2 => '2' | 3 => '3' | 4 => '4' | 5 => '5' | 6 => '6'
  | 7 => '7' | 8 => '8' | 9 => '9' | 10 => 'a' | 11 => 'b' | 12 => 'c'
  | 13 => 'd' | 14 => 'e' | 15 => 'f' | _ => '0'

/-- Python `hashlib` `.hexdigest()` over a byte list. -/
def bytesToHex : List Nat → List Char
  | [] => []
  | b :: rest => hexDigitChar (b / 16) :: hexDigitChar (b % 16) :: bytesToHex rest

/-! ## SHA-256 and HMAC (Python `hashlib.sha256`, `hmac.new`)

32-bit words are `Nat`s kept below `2 ^ 32` by explicit `% 4294967296`. -/

def w32 (n : Nat) : Nat := n % 4294967296

def rotr32 (n x : Nat) : Nat := x / 2 ^ n + x % 2 ^ n * 2 ^ (32 - n)

def smallSigma0 (x : Nat) : Nat := w32 (rotr32 7 x ^^^ rotr32 18 x ^^^ x / 8)

def smallSigma1 (x : Nat) : Nat := w32 (rotr32 17 x ^^^ rotr32 19 x ^^^ x / 1024)

def bigSigma0 (x : Nat) : Nat := w32 (rotr32 2 x ^^^ rotr32 13 x ^^^ rotr32 22 x)

def bigSigma1 (x : Nat) : Nat := w32 (rotr32 6 x ^^^ rotr32 11 x ^^^ rotr32 25 x)

def chFn (x y z : Nat) : Nat := w32 ((x &&& y) ^^^ ((x ^^^ 4294967295) &&& z))

def majFn (x y z : Nat) : Nat := w32 ((x &&& y) ^^^ (x &&& z) ^^^ (y &&& z))

def sha256K : List Nat :=
  [1116352408, 1899447441, 3049323471, 3921009573, 961987163,
   1508970993, 2453635748, 2870763221, 3624381080, 310598401,
   607225278, 1426881987, 1925078388, 2162078206, 2614888103,
   3248222580, 3835390401, 4022224774, 264347078, 604807628,
   770255983, 1249150122, 1555081692, 1996064986, 2554220882,
   2821834349, 2952996808, 3210313671, 3336571891, 3584528711,
   113926993, 338241895, 666307205, 773529912, 1294757372,
   1396182291, 1695183700, 1986661051, 2177026350, 2456956037,
   2730485921, 2820302411, 3259730800, 3345764771, 3516065817,
   3600352804, 4094571909, 275423344, 430227734, 506948616,
   659060556, 883997877, 958139571, 1322822218, 1537002063,
   1747873779, 1955562222, 2024104815, 2227730452, 2361852424,
   2428436474, 2756734187, 3204031479, 3329325298]

def sha256H0 : List Nat :=
  [1779033703, 3144134277, 1013904242, 2773480762, 1359893119,
   2600822924, 528734635, 1541459225]

/-- Big-endian byte serialization of `v` on `k` bytes. -/
def natToBeBytes : Nat → Nat → List Nat
  | 0, _ => []
  | k + 1, v => natToBeBytes k (v / 256) ++ [v % 256]

/-- SHA-256 message padding: `0x80`, zeros to 56 mod 64, 8-byte bit length. -/
def sha256Pad (msg : List Nat) : List Nat :=
  let len := msg.length
  let zeros := (120 - (len + 1) % 64) % 64
  msg ++ 128 :: List.replicate zeros 0 ++ natToBeBytes 8 (len * 8)

def bytesToWords : List Nat → List Nat
  | a :: b :: c :: d :: rest => (((a * 256 + b) * 256 + c) * 256 + d) :: bytesToWords rest
  | _ => []

def chunk16 : List Nat → List (List Nat)
  | [] => []
  | a :: rest => (a :: rest.take 15) :: chunk16 (rest.drop 15)
termination_by l => l.length
decreasing_by
  simp only [List.length_drop, List.length_cons]
  omega

/-- Extend 16 schedule words to 64. -/
def sha256Extend (w : List Nat) : List Nat :=
  (List.range 48).foldl
    (fun acc _ =>
      let n := acc.length
      acc ++ [w32 (smallSigma1 (acc.getD (n - 2) 0) + acc.getD (n - 7) 0 +
                   smallSigma0 (acc.getD (n - 15) 0) + acc.getD (n - 16) 0)])
    w

def sha256Round (state : List Nat) (kw : Nat × Nat) : List Nat :=
  match state with
  | [a, b, c, d, e, f, g, h] =>
    let t1 := w32 (h + bigSigma1 e + chFn e f g + kw.1 + kw.2)
    let t2 := w32 (bigSigma0 a + majFn a b c)
    [w32 (t1 + t2), a, b, c, w32 (d + t1), e, f, g]
  | s => s

def sha256Block (h : List Nat) (block : List Nat) : List Nat :=
  let w := sha256Extend block
  let out := (sha256K.zip w).foldl sha256Round h
  (h.zip out).map (fun p => w32 (p.1 + p.2))

/-- `hashlib.sha256(msg).digest()` as a list of 32 bytes. -/
def sha256 (msg : List Nat) : List Nat :=
  let words := bytesToWords (sha256Pad msg)
  let hh := (chunk16 words).foldl sha256Block sha256H0
  (hh.map (natToBeBytes 4)).flatten

/-- `hmac.new(key, msg, hashlib.sha256).digest()`. -/
def hmacSha256 (key msg : List Nat) : List Nat :=
  let k1 := if 64 < key.length then sha256 key else key
  let k2 := k1 ++ List.replicate (64 - k1.length) 0
  let ipad := k2.map (fun b => b ^^^ 54)
  let opad := k2.map (fun b => b ^^^ 92)
  sha256 (opad ++ sha256 (ipad ++ msg))

/-- `hmac.new(secret.encode(), payload.encode(), hashlib.sha256).hexdigest()[:16]`,
the truncated signature used by `license_crypto.py`. -/
def hmacSha256Hex16 (secret payload : List Char) : List Char :=
  (bytesToHex (hmacSha256 (utf8Encode secret) (utf8Encode payload))).take 16

/-! ## JSON (Python `json.dumps(..., separators=(",", ":"))` / `json.loads`)

JSON numbers are modelled as integers (the only numbers the system writes);
a fractional or exponent literal is treated as a parse failure, as are lone
surrogate escapes. No claim depends on those corner cases. -/

def lbraceChar : Char := Char.ofNat 123

def rbraceChar : Char := Char.ofNat 125

def toHex4 (n : Nat) : List Char :=
  [hexDigitChar (n / 4096 % 16), hexDigitChar (n / 256 % 16),
   hexDigitChar (n / 16 % 16), hexDigitChar (n % 16)]

/-- Escaping of one character as `json.dumps` does with the default
`ensure_ascii=True`. -/
def jsonEscapeChar (c : Char) : List Char :=
  let n := c.toNat
  if c = '"' then ['\\', '"']
  else if c = '\\' then ['\\', '\\']
  else if n = 8 then ['\\', 'b']
  else if n = 9 then ['\\', 't']
  else if n = 10 then ['\\', 'n']
  else if n = 12 then ['\\', 'f']
  else if n = 13 then ['\\', 'r']
  else if n < 32 then '\\' :: 'u' :: toHex4 n
  else if n < 127 then [c]
  else if n < 65536 then '\\' :: 'u' :: toHex4 n
  else
    let m := n - 65536
    '\\' :: 'u' :: toHex4 (55296 + m / 1024) ++ '\\' :: 'u' :: toHex4 (56320 + m % 1024)

def jsonDumpStr (s : List Char) : List Char :=
  '"' :: (s.map jsonEscapeChar).flatten ++ ['"']

def intToDecimal (i : Int) : List Char := (toString i).data

/-- JSON values; numbers restricted to integers as noted above. -/
inductive Json where
  | null
  | bool (b : Bool)
  | num (n : Int)
  | str (s : String)
  | arr (elems : List Json)
  | obj (fields : List (String × Json))
deriving BEq

def jsonIsWs (c : Char) : Bool := c = ' ' || c = '\t' || c = '\n' || c = '\r'

def jsonSkipWs : List Char → List Char
  | [] => []
  | c :: rest => if jsonIsWs c then jsonSkipWs rest else c :: rest

def hexCharVal (c : Char) : Option Nat :=
  let n := c.toNat
  if 48 ≤ n && n ≤ 57 then some (n - 48)
  else if 97 ≤ n && n ≤ 102 then some (n - 87)
  else if 65 ≤ n && n ≤ 70 then some (n - 55)
  else none

def hex4Val (a b c d : Char) : Option Nat :=
  match hexCharVal a, hexCharVal b, hexCharVal c, hexCharVal d with
  | some va, some vb, some vc, some vd => some (((va * 16 + vb) * 16 + vc) * 16 + vd)
  | _, _, _, _ => none

/-- Parse the rest of a JSON string after its opening quote; returns the
content and the characters after the closing quote. -/
def jsonParseStringRest : List Char → Option (List Char × List Char)
  | [] => none
  | c :: rest =>
    if c = '"' then some ([], rest)
    else if c = '\\' then
      match rest with
      | [] => none
      | e :: rest2 =>
        if e = 'u' then
          match rest2 with
          | h1 :: h2 :: h3 :: h4 :: rest6 =>
            match hex4Val h1 h2 h3 h4 with
            | none => none
            | some v =>
              if v < 55296 || 57344 ≤ v then
                (jsonParseStringRest rest6).map (fun p => (Char.ofNat v :: p.1, p.2))
              else if v < 56320 then
                match rest6 with
                | e2 :: u2 :: g1 :: g2 :: g3 :: g4 :: rest12 =>
                  if e2 = '\\' && u2 = 'u' then
                    match hex4Val g1 g2 g3 g4 with
                    | some w =>
                      if 56320 ≤ w && w < 57344 then
                        (jsonParseStringRest rest12).map
                          (fun p => (Char.ofNat (65536 + (v - 55296) * 1024 + (w - 56320)) :: p.1, p.2))
                      else none
                    | none => none
                  else none
                | _ => none
              else none
          | _ => none
        else
          match
            (if e = '"' then some '"'
             else if e = '\\' then some '\\'
             else if e = '/' then some '/'
             else if e = 'b' then some (Char.ofNat 8)
             else if e = 'f' then some (Char.ofNat 12)
             else if e = 'n' then some '\n'
             else if e = 'r' then some (Char.ofNat 13)
             else if e = 't' then some '\t'
             else none) with
          | some d => (jsonParseStringRest rest2).map (fun p => (d :: p.1, p.2))
          | none => none
    else if c.toNat < 32 then none
    else (jsonParseStringRest rest).map (fun p => (c :: p.1, p.2))

def jsonParseDigits : List Char → Nat × List Char
  | [] => (0, [])
  | c :: rest =>
    if 48 ≤ c.toNat && c.toNat ≤ 57 then
      let p := jsonParseDigits rest
      (p.1 + 1, p.2)
    else (0, c :: rest)

def decDigitsVal : List Char → Nat
  | [] => 0
  | c :: rest => (c.toNat - 48) * 10 ^ rest.length + decDigitsVal rest

/-- Parse an integer literal; fails on `.`/`e` continuations (floats are not
modelled). -/
def jsonParseInt (l : List Char) : Option (Int × List Char) :=
  let (neg, body) : Bool × List Char :=
    match l with
    | c :: rest => if c = '-' then (true, rest) else (false, l)
    | [] => (false, [])
  let (nd, after) := jsonParseDigits body
  if nd = 0 then none
  else
    match after with
    | c :: _ => if c = '.' || c = 'e' || c = 'E' then none else
        some ((if neg then -(decDigitsVal (body.take nd) : Int) else (decDigitsVal (body.take nd) : Int)), after)
    | [] => some ((if neg then -(decDigitsVal (body.take nd) : Int) else (decDigitsVal (body.take nd) : Int)), after)

mutual

def jsonParseValue : Nat → List Char → Option (Json × List Char)
  | 0, _ => none
  | fuel + 1, l =>
    match jsonSkipWs l with
    | [] => none
    | c :: rest =>
      if c = '"' then
        (jsonParseStringRest rest).map (fun p => (.str (String.mk p.1), p.2))
      else if c = 't' then
        match rest with
        | 'r' :: 'u' :: 'e' :: rest4 => some (.bool true, rest4)
        | _ => none
      else if c = 'f' then
        match rest with
        | 'a' :: 'l' :: 's' :: 'e' :: rest5 => some (.bool false, rest5)
        | _ => none
      else if c = 'n' then
        match rest with
        | 'u' :: 'l' :: 'l' :: rest4 => some (.null, rest4)
        | _ => none
      else if c = lbraceChar then
        match jsonSkipWs rest with
        | d :: rest2 =>
          if d = rbraceChar then some (.obj [], rest2)
          else (jsonParseMembers fuel (d :: rest2)).map (fun p => (.obj p.1, p.2))
        | [] => none
      else if c = '[' then
        match jsonSkipWs rest with
        | d :: rest2 =>
          if d = ']' then some (.arr [], rest2)
          else (jsonParseElems fuel (d :: rest2)).map (fun p => (.arr p.1, p.2))
        | [] => none
      else
        (jsonParseInt (c :: rest)).map (fun p => (.num p.1, p.2))

def jsonParseMembers : Nat → List Char → Option (List (String × Json) × List Char)
  | 0, _ => none
  | fuel + 1, l =>
    match jsonSkipWs l with
    | '"' :: rest =>
      match jsonParseStringRest rest with
      | none => none
      | some (key, rest2) =>
        match jsonSkipWs rest2 with
        | ':' :: rest3 =>
          match jsonParseValue fuel rest3 with
          | none => none
          | some (v, rest4) =>
            match jsonSkipWs rest4 with
            | ',' :: rest5 =>
              (jsonParseMembers fuel rest5).map
                (fun p => ((String.mk key, v) :: p.1, p.2))
            | d :: rest5 =>
              if d = rbraceChar then some ([(String.mk key, v)], rest5) else none
            | [] => none
        | _ => none
    | _ => none

def jsonParseElems : Nat → List Char → Option (List Json × List Char)
  | 0, _ => none
  | fuel + 1, l =>
    match jsonParseValue fuel l with
    | none => none
    | some (v, rest) =>
      match jsonSkipWs rest with
      | ',' :: rest2 => (jsonParseElems fuel rest2).map (fun p => (v :: p.1, p.2))
      | ']' :: rest2 => some ([v], rest2)
      | _ => none

end

/-- Python `json.loads` (restricted as noted above): the whole input must be
one JSON value followed only by whitespace. -/
def pyJsonLoads (s : List Char) : Option Json :=
  match jsonParseValue (s.length + 8) s with
  | some (j, rest) => if (jsonSkipWs rest).isEmpty then some j else none
  | none => none

/-! ## `license_crypto.py` -/

/-- `datetime.utcnow() + timedelta(days=days)` in seconds. -/
def licenseExpiresAt (now : ℚ) (days : Int) : ℚ := now + (days : ℚ) * 86400

/-- The payload dict of `generate_license_key`, serialized by
`json.dumps(payload, separators=(",", ":"))` in insertion order
`uid, name, exp, nonce` with `av` appended only when `avatar_url` is
non-empty. `nonce` is the `secrets.token_hex(8)` value, passed in explicitly
because it is random in the source. -/
def licensePayloadJson (discordId discordName : String) (exp : Int)
    (nonce : String) (avatarUrl : String) : List Char :=
  lbraceChar :: jsonDumpStr "uid".data ++ ':' :: jsonDumpStr discordId.data ++
    ',' :: jsonDumpStr "name".data ++ ':' :: jsonDumpStr discordName.data ++
    ',' :: jsonDumpStr "exp".data ++ ':' :: intToDecimal exp ++
    ',' :: jsonDumpStr "nonce".data ++ ':' :: jsonDumpStr nonce.data ++
    (if avatarUrl.data.isEmpty then [] else
      ',' :: jsonDumpStr "av".data ++ ':' :: jsonDumpStr avatarUrl.data) ++
    [rbraceChar]

/-- `base64.urlsafe_b64encode(payload_json.encode()).decode().rstrip("=")`. -/
def licensePayloadB64 (discordId discordName : String) (days : Int)
    (avatarUrl : String) (now : ℚ) (nonce : String) : List Char :=
  b64UrlEncodeNoPad (utf8Encode (licensePayloadJson discordId discordName
    (pyIntTrunc (licenseExpiresAt now days)) nonce avatarUrl))

/-- `generate_license_key(secret_key, discord_id, days, discord_name,
avatar_url)`: returns the key `SAINT-{payload_b64}-{signature}` and the
expiration instant. -/
def generate_license_key (secretKey discordId : String) (days : Int)
    (discordName avatarUrl : String) (now : ℚ) (nonce : String) : String × ℚ :=
  let payloadB64 := licensePayloadB64 discordId discordName days avatarUrl now nonce
  let signature := hmacSha256Hex16 secretKey.data payloadB64
  (String.mk ("SAINT-".data ++ payloadB64 ++ '-' :: signature),
   licenseExpiresAt now days)

/-- The re-padding `payload_b64 += "=" * padding` in `verify_license_key`. -/
def verifyPad (l : List Char) : List Char :=
  let p := 4 - l.length % 4
  if p ≠ 4 then l ++ List.replicate p '=' else l

/-- The decode pipeline of `verify_license_key`: re-pad, base64-decode,
UTF-8-decode, `json.loads`. Any exception on the way is `none` (caught by
the surrounding `try`). -/
def decodeTokenPayload (payloadB64 : List Char) : Option Json :=
  match pyUrlsafeB64Decode (verifyPad payloadB64) with
  | none => none
  | some bytes =>
    match utf8Decode bytes with
    | none => none
    | some chars => pyJsonLoads chars

/-- `payload.get("exp", 0)` followed by its use as a number in
`time.time() > expires_timestamp`: a non-dict payload raises
`AttributeError`, a non-numeric `exp` raises `TypeError` (both `none`);
a `bool` compares as `0`/`1` since Python `bool` is an `int`. A duplicate
key in the JSON object keeps the last occurrence, as `json.loads` does. -/
def pyExpOf (j : Json) : Option ℚ :=
  match j with
  | .obj fields =>
    match fields.reverse.find? (fun f => f.1 = "exp") with
    | none => some 0
    | some (_, .num n) => some (n : ℚ)
    | some (_, .bool b) => some (if b then 1 else 0)
    | some _ => none
  | _ => none

/-- `hmac.compare_digest` on two `str`s: equality, but a non-ASCII argument
raises `TypeError` (`none`). -/
def pyCompareDigest (a b : List Char) : Option Bool :=
  if a.all (fun c => c.toNat < 128) && b.all (fun c => c.toNat < 128) then
    some (a == b)
  else none

/-- `verify_license_key(secret_key, license_key)` at instant `now`
(`time.time()`): returns `(is_valid, payload, message)`. The embedded
function is total: every exception path of the source is caught by its
`try`/`except` and becomes a `(False, None, "Verification error...")`
result, whose message text is not modelled beyond a constant. -/
def verify_license_key (secretKey : String) (now : ℚ) (licenseKey : String) :
    Bool × Option Json × String :=
  if ¬ "SAINT-".data.isPrefixOf licenseKey.data then
    (false, none, "Invalid key format")
  else
    match pySplitDash licenseKey.data with
    | [_, payloadB64, signature] =>
      let expected := hmacSha256Hex16 secretKey.data payloadB64
      match pyCompareDigest signature expected with
      | none => (false, none, "Verification error")
      | some false => (false, none, "Invalid signature")
      | some true =>
        match decodeTokenPayload payloadB64 with
        | none => (false, none, "Verification error")
        | some payload =>
          match pyExpOf payload with
          | none => (false, none, "Verification error")
          | some exp =>
            if now > exp then (false, some payload, "Key expired")
            else (true, some payload, "Valid")
    | _ => (false, none, "Invalid key format")

/-! ## `database.py`: the `licenses` table

One record per row of the `licenses` table created by `init_db`, plus
`warning_notified`. -/

/-- A row of `licenses`. `warning_notified` — Modelled from the spec:
`bot.py` imports `get_licenses_expiring_soon` and `mark_warning_notified`
from `database`, but `src/database.py` defines neither and `init_db` creates
no such column; spec §3 lists `warningNotified` as one of the two
"idempotency guards for the expiry sweep", so the flag column is modelled
here alongside the columns the source does create. -/
structure License where
  license_key : String
  discord_id : String
  discord_name : String
  created_at : ℚ
  expires_at : ℚ
  revoked : Nat
  hwid : Option String
  expiry_notified : Nat
  product : String
  pending_days : Option Int
  warning_notified : Nat
deriving DecidableEq, Repr

/-- `add_license`: `INSERT INTO licenses ...`; `UniqueViolationError` on the
`license_key` primary key becomes `false` with the table unchanged. -/
def add_license (licenseKey discordId discordName : String) (expiresAt : ℚ)
    (product : String) (pendingDays : Option Int) (now : ℚ)
    (s : List License) : Bool × List License :=
  if s.any (fun l => l.license_key == licenseKey) then
    (false, s)
  else
    (true, s ++ [{ license_key := licenseKey, discord_id := discordId,
                   discord_name := discordName, created_at := now,
                   expires_at := expiresAt, revoked := 0, hwid := none,
                   expiry_notified := 0, product := product,
                   pending_days := pendingDays, warning_notified := 0 }])

/-- `get_license_by_key`: `SELECT * FROM licenses WHERE license_key = $1`. -/
def get_license_by_key (licenseKey : String) (s : List License) :
    Option License :=
  s.find? (fun l => l.license_key == licenseKey)

/-- `ORDER BY expires_at DESC LIMIT 1` over a result set: the first row with
the maximal `expires_at`. -/
def pickLatestExpiry : List License → Option License
  | [] => none
  | l :: rest =>
    match pickLatestExpiry rest with
    | none => some l
    | some m => if l.expires_at < m.expires_at then some m else some l

/-- Python `max(a, b)` as the source computes it (kernel-computable form;
equal to `max`, see `pyMax_eq_max`). -/
def pyMax (a b : ℚ) : ℚ := if a < b then b else a

/-- `extend_license(license_key, days)`: asymmetric base rule, then
`UPDATE licenses SET expires_at = $1, revoked = 0 WHERE license_key = $2`.
Returns the new expiry instant (the source returns its `isoformat()`
string) or `none` when the key does not exist, in which case no `UPDATE`
is executed. -/
def extend_license (now : ℚ) (licenseKey : String) (days : ℚ)
    (s : List License) : Option ℚ × List License :=
  match s.find? (fun l => l.license_key == licenseKey) with
  | none => (none, s)
  | some row =>
    let base := if 0 < days then pyMax row.expires_at now else row.expires_at
    let newExpiry := base + days * 86400
    (some newExpiry,
     s.map (fun l =>
       if l.license_key == licenseKey then
         { l with expires_at := newExpiry, revoked := 0 }
       else l))

/-- `extend_user_license_for_product(discord_id, days, product)`:
`SELECT ... WHERE discord_id = $1 AND product = $2 ORDER BY expires_at DESC
LIMIT 1` (note: no `revoked` filter), then `extend_license`. -/
def extend_user_license_for_product (now : ℚ) (discordId : String)
    (days : ℚ) (product : String) (s : List License) :
    Option ℚ × List License :=
  match pickLatestExpiry (s.filter
      (fun l => l.discord_id == discordId && l.product == product)) with
  | none => (none, s)
  | some row => extend_license now row.license_key days s

/-- Does a row match the optional product filter? (`product` absent means no
`AND product = ...` clause.) -/
def productFilter (product : Option String) (l : License) : Bool :=
  match product with
  | none => true
  | some p => l.product == p

/-- `get_license_stats(product)`: the four `COUNT(*)` queries, all taken at
the single `now = datetime.utcnow()` read at the top of the function. -/
def get_license_stats (now : ℚ) (product : Option String)
    (s : List License) : Nat × Nat × Nat × Nat :=
  (s.countP (fun l => productFilter product l),
   s.countP (fun l => productFilter product l && l.revoked == 0 &&
     decide (now < l.expires_at)),
   s.countP (fun l => productFilter product l && l.revoked == 1),
   s.countP (fun l => productFilter product l && l.revoked == 0 &&
     decide (l.expires_at ≤ now)))

/-- `get_newly_expired_licenses`: `SELECT * FROM licenses WHERE
expires_at <= $1 AND revoked = 0 AND expiry_notified = 0`. -/
def get_newly_expired_licenses (now : ℚ) (s : List License) : List License :=
  s.filter (fun l => decide (l.expires_at ≤ now) && l.revoked == 0 &&
    l.expiry_notified == 0)

/-- `mark_expiry_notified`: `UPDATE licenses SET expiry_notified = 1 WHERE
license_key = $1`. -/
def mark_expiry_notified (licenseKey : String) (s : List License) :
    List License :=
  s.map (fun l =>
    if l.license_key == licenseKey then { l with expiry_notified := 1 } else l)

/-- Modelled from the spec: `get_licenses_expiring_soon(days)` is imported by
`bot.py` but missing from `src/database.py`. Spec §4.4: "selects licenses
expiring within a fixed warning window (`expiresAt` between `now` and
`now + warningWindow`) with `warningNotified=false`"; the claim and §4.4's
symmetry with the expiry sweep make it select only non-revoked rows.
`days` is the window in days (`bot.py` passes 3). -/
def get_licenses_expiring_soon (now : ℚ) (days : ℚ) (s : List License) :
    List License :=
  s.filter (fun l => decide (now ≤ l.expires_at) &&
    decide (l.expires_at ≤ now + days * 86400) &&
    l.revoked == 0 && l.warning_notified == 0)

/-- Modelled from the spec: `mark_warning_notified(license_key)` is imported
by `bot.py` but missing from `src/database.py`; spec §4.4 says the warning
sweep "sets the flag". -/
def mark_warning_notified (licenseKey : String) (s : List License) :
    List License :=
  s.map (fun l =>
    if l.license_key == licenseKey then { l with warning_notified := 1 } else l)

/-! ## `database.py`: the `shopify_notifications` table -/

/-- A row of `shopify_notifications` as created by `init_notifications_table`
/ `add_notification`. -/
structure NotificationRec where
  id : Nat
  discord_id : String
  license_key : String
  expires_at : ℚ
  product : String
  customer_name : Option String
  email : Option String
  order_number : Option String
  created_at : ℚ
  delivered : Nat
  delivery_attempts : Nat
  last_attempt_at : Option ℚ
  error_message : Option String
deriving DecidableEq, Repr

/-- Row order for `ORDER BY created_at ASC`. -/
def notifCreatedLe (a b : NotificationRec) : Prop := a.created_at ≤ b.created_at

/-- Row order for `ORDER BY created_at DESC`. -/
def notifCreatedGe (a b : NotificationRec) : Prop := b.created_at ≤ a.created_at

instance : DecidableRel notifCreatedLe := fun a b => by
  unfold notifCreatedLe; infer_instance

instance : DecidableRel notifCreatedGe := fun a b => by
  unfold notifCreatedGe; infer_instance

instance : IsTotal NotificationRec notifCreatedLe :=
  ⟨fun a b => le_total a.created_at b.created_at⟩

instance : IsTrans NotificationRec notifCreatedLe :=
  ⟨fun _ _ _ h1 h2 => le_trans h1 h2⟩

instance : IsTotal NotificationRec notifCreatedGe :=
  ⟨fun a b => (le_total b.created_at a.created_at).imp id id⟩

instance : IsTrans NotificationRec notifCreatedGe :=
  ⟨fun _ _ _ h1 h2 => le_trans h2 h1⟩

/-- `get_pending_notifications(limit)`: `SELECT * FROM shopify_notifications
WHERE delivered = 0 AND delivery_attempts < 5 ORDER BY created_at ASC
LIMIT $1`. -/
def get_pending_notifications (limit : Nat) (t : List NotificationRec) :
    List NotificationRec :=
  (List.insertionSort notifCreatedLe
    (t.filter (fun r => r.delivered == 0 && decide (r.delivery_attempts < 5)))).take limit

/-- `mark_notification_failed(notification_id, error)`: `UPDATE ... SET
delivery_attempts = delivery_attempts + 1, last_attempt_at = $1,
error_message = $2 WHERE id = $3`. -/
def mark_notification_failed (notificationId : Nat) (error : Option String)
    (now : ℚ) (t : List NotificationRec) : List NotificationRec :=
  t.map (fun r =>
    if r.id == notificationId then
      { r with delivery_attempts := r.delivery_attempts + 1,
               last_attempt_at := some now, error_message := error }
    else r)

/-- `get_failed_notifications()`: `SELECT * FROM shopify_notifications WHERE
delivered = 0 AND delivery_attempts >= 5 ORDER BY created_at DESC`. -/
def get_failed_notifications (t : List NotificationRec) :
    List NotificationRec :=
  List.insertionSort notifCreatedGe
    (t.filter (fun r => r.delivered == 0 && decide (5 ≤ r.delivery_attempts)))

/-- `mark_notification_delivered(notification_id)`: `UPDATE ... SET
delivered = 1, last_attempt_at = $1 WHERE id = $2`. -/
def mark_notification_delivered (notificationId : Nat) (now : ℚ)
    (t : List NotificationRec) : List NotificationRec :=
  t.map (fun r =>
    if r.id == notificationId then
      { r with delivered := 1, last_attempt_at := some now }
    else r)

/-! ## `bot.py`: background sweeps

The Discord side of each sweep (role removal, DMs) cannot touch the store,
and every exception it raises is caught inside the per-license loop body, so
it is modelled as an outcome function `hook` whose result the sweep ignores:
`mark_expiry_notified` / `mark_warning_notified` run "regardless", exactly
as the source comments say. The returned event list holds the keys of the
licenses the cycle processed (for each of which the external hook is
attempted). -/

/-- One cycle of `LicenseBot.check_expired_licenses`. -/
def check_expired_licenses (hook : License → Bool) (now : ℚ)
    (s : List License) : List License × List String :=
  let sel := get_newly_expired_licenses now s
  (sel.foldl (fun acc l => mark_expiry_notified l.license_key acc) s,
   sel.map (fun l => l.license_key))

/-- A sequence of expiry-sweep cycles, each with its own hook outcomes and
its own `now`; returns the final table and all processed keys in order. -/
def runExpirySweeps : List ((License → Bool) × ℚ) → List License →
    List License × List String
  | [], s => (s, [])
  | (hook, now) :: rest, s =>
    let r := check_expired_licenses hook now s
    let r2 := runExpirySweeps rest r.1
    (r2.1, r.2 ++ r2.2)

/-- One cycle of `LicenseBot.check_expiring_soon` (warning window of 3 days,
as `bot.py` passes `days=3`). -/
def check_expiring_soon (hook : License → Bool) (now : ℚ)
    (s : List License) : List License × List String :=
  let sel := get_licenses_expiring_soon now 3 s
  (sel.foldl (fun acc l => mark_warning_notified l.license_key acc) s,
   sel.map (fun l => l.license_key))

/-- A sequence of warning-sweep cycles. -/
def runWarnSweeps : List ((License → Bool) × ℚ) → List License →
    List License × List String
  | [], s => (s, [])
  | (hook, now) :: rest, s =>
    let r := check_expiring_soon hook now s
    let r2 := runWarnSweeps rest r.1
    (r2.1, r.2 ++ r2.2)

/-! ## `bot.py`: `ExchangeConfirmView.confirm` -/

/-- A Python exception escaping the handler. -/
inductive PyRunError where
  | nameError
deriving DecidableEq, Repr

/-- The user-visible outcome of a completed `confirm` call. -/
inductive ExchangeOutcome where
  | sourceUpdateFailed
  | targetExtendFailed
  | targetCreateFailed
  | completed (targetExpires : ℚ)
deriving DecidableEq, Repr

/-- The target half of `confirm`, entered after the source debit. If an
unrevoked target-license snapshot exists the handler extends it and, on
failure, re-applies `source_days_to_subtract` ("# Restore source days");
otherwise it creates a new license and, on failure, its restore line reads
the never-assigned name `source_days_to_add` (bot.py:2037), so a `NameError`
escapes before any compensating `extend_license` call is made. -/
def exchange_target_step (now : ℚ) (discordId displayName : String)
    (sourceKey : Option String) (sourceDaysToSubtract targetSeconds : ℚ)
    (targetLicense : Option License) (targetProductKey newKey : String)
    (s1 : List License) : Except PyRunError ExchangeOutcome × List License :=
  if (match targetLicense with | some tl => tl.revoked == 0 | none => false) then
    let r2 := extend_user_license_for_product now discordId
      (targetSeconds / 86400) targetProductKey s1
    match r2.1 with
    | some newTargetExpiry => (.ok (.completed newTargetExpiry), r2.2)
    | none =>
      match sourceKey with
      | some k =>
        (.ok .targetExtendFailed, (extend_license now k sourceDaysToSubtract r2.2).2)
      | none => (.ok .targetExtendFailed, r2.2)
  else
    let targetExpires := now + targetSeconds
    let r3 := add_license newKey discordId displayName targetExpires
      targetProductKey none now s1
    if r3.1 then (.ok (.completed targetExpires), r3.2)
    else
      match sourceKey with
      | some _ => (.error .nameError, r3.2)
      | none => (.ok .targetCreateFailed, r3.2)

/-- `ExchangeConfirmView.confirm`: debit the source license by
`source_seconds / 86400` days (skipped when the snapshot has no
`license_key`), then mutate the target via `exchange_target_step`. `newKey`
stands for the `generate_license_key` output of the create path, random in
the source. The whole interaction is modelled at one instant `now`. -/
def exchange_confirm (now : ℚ) (discordId displayName : String)
    (sourceKey : Option String) (sourceSeconds targetSeconds : ℚ)
    (targetLicense : Option License) (targetProductKey newKey : String)
    (s : List License) : Except PyRunError ExchangeOutcome × List License :=
  let sourceDaysToSubtract := sourceSeconds / 86400
  match sourceKey with
  | some k =>
    let r1 := extend_license now k (-sourceDaysToSubtract) s
    match r1.1 with
    | none => (.ok .sourceUpdateFailed, r1.2)
    | some _ =>
      exchange_target_step now discordId displayName (some k)
        sourceDaysToSubtract targetSeconds targetLicense targetProductKey newKey r1.2
  | none =>
    exchange_target_step now discordId displayName none
      sourceDaysToSubtract targetSeconds targetLicense targetProductKey newKey s

/-! ## `api.py`: version gate and `/verify` -/

/-- Generic single-character `str.split`, as `pySplitDash` but for any
separator (used for `version.split('.')`). -/
def pySplitOnChar (sep : Char) : List Char → List (List Char)
  | [] => [[]]
  | c :: rest =>
    if c = sep then
      [] :: pySplitOnChar sep rest
    else
      match pySplitOnChar sep rest with
      | [] => [[c]]
      | h :: t => (c :: h) :: t

/-- Python `int(str)` restricted to an optional sign and decimal digits
(`ValueError` is `none`). -/
def pyIntParse (l : List Char) : Option Int :=
  let (neg, body) : Bool × List Char :=
    match l with
    | c :: rest =>
      if c = '-' then (true, rest) else if c = '+' then (false, rest) else (false, l)
    | [] => (false, [])
  if body.isEmpty || ¬ body.all (fun c => 48 ≤ c.toNat && c.toNat ≤ 57) then none
  else some (if neg then -(decDigitsVal body : Int) else (decDigitsVal body : Int))

/-- `parse_version`: `tuple(int(x) for x in version.split('.'))` with the
`except` fallback `(0, 0, 0)`. -/
def parse_version (version : String) : List Int :=
  match (pySplitOnChar '.' version.data).mapM pyIntParse with
  | some parts => parts
  | none => [0, 0, 0]

/-- Lexicographic `<` on Python tuples of ints (shorter is smaller when a
strict prefix). -/
def verLt : List Int → List Int → Bool
  | [], [] => false
  | [], _ :: _ => true
  | _ :: _, [] => false
  | x :: xs, y :: ys => decide (x < y) || (x == y && verLt xs ys)

/-- `PRODUCT_VERSIONS.get(product, {}).get("min", "0.0.0")`. -/
def productMinVersion (product : String) : String :=
  if product == "saints-gen" then "2.5.9"
  else if product == "saints-shot" then "2.1.0"
  else "0.0.0"

/-- `check_version_allowed(product, version)` (first component only; the
message is not modelled). An absent or empty version is blocked. -/
def check_version_allowed (product : String) (version : Option String) : Bool :=
  match version with
  | none => false
  | some v =>
    if v.isEmpty then false
    else ! verLt (parse_version v) (parse_version (productMinVersion product))

/-- Result of the `/verify` endpoint; only the fields the claims are about
(`valid`, `reason`, and the presence of `"bound": True`) are modelled, the
constant feature-flag `config` block is not. -/
structure VerifyResponse where
  valid : Bool
  reason : String
  bound : Bool := false
deriving DecidableEq, Repr

/-- The body of the `try` in `/verify`: everything from pool acquisition
through the row lookup (and the binding `UPDATE`). `dbOk = false` models the
storage layer raising: the `except` returns the permissive
`{"valid": True, "reason": "db_error", ...}` response and nothing is
mutated. -/
def verify_db_stage (now : ℚ) (key : String) (hwidVal productVal : Option String)
    (dbOk : Bool) (s : List License) : VerifyResponse × List License :=
  if ! dbOk then ({ valid := true, reason := "db_error" }, s)
  else
    match s.find? (fun l => l.license_key == key) with
    | none => ({ valid := false, reason := "not_found" }, s)
    | some row =>
      if (match productVal with | some p => row.product != p | none => false) then
        ({ valid := false, reason := "wrong_product" }, s)
      else if row.revoked ≠ 0 then
        ({ valid := false, reason := "revoked" }, s)
      else if row.expires_at < now then
        ({ valid := false, reason := "expired" }, s)
      else
        match hwidVal with
        | some h =>
          match row.hwid with
          | none =>
            ({ valid := true, reason := "activated", bound := true },
             s.map (fun l => if l.license_key == key then { l with hwid := some h } else l))
          | some stored =>
            if stored ≠ h then ({ valid := false, reason := "hwid_mismatch" }, s)
            else ({ valid := true, reason := "active" }, s)
        | none => ({ valid := true, reason := "active" }, s)

/-- `GET /verify` (`api.py verify_license`): format gate, per-product version
gate, then the database stage. `hwid`/`product`/`version` are query
parameters whose empty string is falsy in Python, normalized here to
`none`. -/
def verify_license (now : ℚ) (key : String) (hwid product version : Option String)
    (dbOk : Bool) (s : List License) : VerifyResponse × List License :=
  let productVal : Option String :=
    match product with
    | some p => if p.isEmpty then none else some p
    | none => none
  let hwidVal : Option String :=
    match hwid with
    | some h => if h.isEmpty then none else some h
    | none => none
  if key.isEmpty || ¬ "SAINT-".data.isPrefixOf key.data then
    ({ valid := false, reason := "invalid_format" }, s)
  else
    match productVal with
    | some p =>
      if ! check_version_allowed p version then
        ({ valid := false, reason := "update_required" }, s)
      else verify_db_stage now key hwidVal (some p) dbOk s
    | none => verify_db_stage now key hwidVal none dbOk s

/-! ## Shared lemmas -/

theorem pyMax_eq_max (a b : ℚ) : pyMax a b = max a b := by
  unfold pyMax
  rcases le_or_lt b a with h | h
  · rw [if_neg (not_lt.mpr h), max_eq_left h]
  · rw [if_pos h, max_eq_right h.le]

theorem find?_eq_some_key {s : List License} {k : String} {row : License}
    (h : s.find? (fun l => l.license_key == k) = some row) :
    row.license_key = k := by
  have := List.find?_some h
  simpa using this

/-- Sample rows used by concrete witnesses. -/
def licBase : License :=
  { license_key := "KEY1", discord_id := "100", discord_name := "U",
    created_at := 0, expires_at := 0, revoked := 0, hwid := none,
    expiry_notified := 0, product := "saints-gen", pending_days := none,
    warning_notified := 0 }

/-! ## C4 — extend asymmetry -/

/-- C4: for an existing key, `extend_license` with `deltaDays > 0` computes
the new expiry from `max(currentExpiresAt, now)`, with `deltaDays < 0` from
`currentExpiresAt` alone (no floor at `now`); for an unknown key it returns
`None` and leaves the table unchanged. -/
theorem extend_license_asymmetry (now : ℚ) (k : String) (days : ℚ)
    (s : List License) :
    (∀ row, s.find? (fun l => l.license_key == k) = some row →
      (0 < days →
        (extend_license now k days s).1 =
          some (max row.expires_at now + days * 86400)) ∧
      (days < 0 →
        (extend_license now k days s).1 =
          some (row.expires_at + days * 86400))) ∧
    (s.find? (fun l => l.license_key == k) = none →
      extend_license now k days s = (none, s)) := by
  refine ⟨fun row hrow => ⟨fun hd => ?_, fun hd => ?_⟩, fun hnone => ?_⟩
  · simp [extend_license, hrow, hd, pyMax_eq_max]
  · have hnd : ¬ 0 < days := by linarith
    simp [extend_license, hrow, hnd]
  · simp [extend_license, hnone]

def licExpired5d : License := { licBase with expires_at := 432000 }

def licFuture10d : License := { licBase with expires_at := 864000 }

/-- C4 witness: the spec's two examples. A license that expired 5 days ago
(now = day 10, expiry = day 5) extended by +10 expires 10 days from now
(day 20); a license expiring 10 days from now (now = 0) reduced by 3
expires exactly 7 days from now. -/
theorem extend_license_asymmetry_witness :
    (extend_license 864000 "KEY1" 10 [licExpired5d]).1 = some 1728000 ∧
    (extend_license 0 "KEY1" (-3) [licFuture10d]).1 = some 604800 := by
  constructor
  · have h := ((extend_license_asymmetry 864000 "KEY1" 10 [licExpired5d]).1
      licExpired5d (by decide)).1 (by norm_num)
    rw [h]
    norm_num [licExpired5d, licBase]
  · have h := ((extend_license_asymmetry 0 "KEY1" (-3) [licFuture10d]).1
      licFuture10d (by decide)).2 (by norm_num)
    rw [h]
    norm_num [licFuture10d, licBase]

/-! ## C8 — stats partition -/

/-- C8: when every row's `revoked` flag is 0 or 1, the four counts of
`get_license_stats` satisfy `active + expired + revoked = total`, for any
product filter and any `now`. -/
theorem get_license_stats_partition (now : ℚ) (product : Option String)
    (s : List License) (h : ∀ l ∈ s, l.revoked = 0 ∨ l.revoked = 1) :
    (get_license_stats now product s).2.1 +
      (get_license_stats now product s).2.2.2 +
      (get_license_stats now product s).2.2.1 =
      (get_license_stats now product s).1 := by
  induction s with
  | nil => simp [get_license_stats]
  | cons a t ih =>
    have ha := h a (by simp)
    have iht := ih (fun l hl => h l (List.mem_cons_of_mem a hl))
    simp only [get_license_stats, List.countP_cons] at iht ⊢
    by_cases hp : productFilter product a = true
    · rcases ha with h0 | h1
      · rcases le_or_lt a.expires_at now with he | he
        · have h1 : ¬ now < a.expires_at := not_lt.mpr he
          simp only [hp, h0, he, h1] at iht ⊢
          simp_all
          omega
        · have h2 : ¬ a.expires_at ≤ now := not_le.mpr he
          simp only [hp, h0, he, h2] at iht ⊢
          simp_all
          omega
      · simp only [hp, h1] at iht ⊢
        simp_all
        omega
    · simp only [Bool.not_eq_true] at hp
      simp only [hp, Bool.false_and, if_false] at iht ⊢
      simp_all

def licStatsA : License := { licBase with license_key := "A", expires_at := 100 }

def licStatsB : License :=
  { licBase with license_key := "B", expires_at := 10, revoked := 1 }

def licStatsC : License :=
  { licBase with license_key := "C", expires_at := 10, product := "saints-shot" }

/-- C8 witness: a concrete three-row table at `now = 50`, with and without a
product filter. -/
theorem get_license_stats_partition_witness :
    ((get_license_stats 50 none [licStatsA, licStatsB, licStatsC]).2.1 +
      (get_license_stats 50 none [licStatsA, licStatsB, licStatsC]).2.2.2 +
      (get_license_stats 50 none [licStatsA, licStatsB, licStatsC]).2.2.1 =
      (get_license_stats 50 none [licStatsA, licStatsB, licStatsC]).1) ∧
    ((get_license_stats 50 (some "saints-gen") [licStatsA, licStatsB, licStatsC]).2.1 +
      (get_license_stats 50 (some "saints-gen") [licStatsA, licStatsB, licStatsC]).2.2.2 +
      (get_license_stats 50 (some "saints-gen") [licStatsA, licStatsB, licStatsC]).2.2.1 =
      (get_license_stats 50 (some "saints-gen") [licStatsA, licStatsB, licStatsC]).1) :=
  ⟨get_license_stats_partition 50 none _ (by decide),
   get_license_stats_partition 50 (some "saints-gen") _ (by decide)⟩

/-! ## C5 — fail-open is scoped to verification -/

/-- The format pre-check of `/verify`. -/
def verify_format_ok (key : String) : Bool :=
  ! key.isEmpty && "SAINT-".data.isPrefixOf key.data

/-- The version pre-check of `/verify`: either no (truthy) product was
supplied, so no version gate runs, or `check_version_allowed` passes. -/
def version_gate_passes (product version : Option String) : Bool :=
  match product with
  | some p => p.isEmpty || check_version_allowed p version
  | none => true

/-- C5: whenever a `/verify` request passes the format and version
pre-checks and the storage layer then raises (`dbOk = false`), the endpoint
answers permissively with `valid = true` (reason `db_error`) and the table is
untouched — a backend failure is never turned into a rejection. -/
theorem verify_license_fail_open (now : ℚ) (key : String)
    (hwid product version : Option String) (s : List License)
    (hkey : verify_format_ok key = true)
    (hver : version_gate_passes product version = true) :
    verify_license now key hwid product version false s =
      ({ valid := true, reason := "db_error" }, s) ∧
    (verify_license now key hwid product version false s).1.valid = true := by
  simp only [verify_format_ok, Bool.and_eq_true, Bool.not_eq_true'] at hkey
  have hmain : verify_license now key hwid product version false s =
      ({ valid := true, reason := "db_error" }, s) := by
    unfold verify_license
    rw [if_neg (by simp [hkey.1, hkey.2])]
    cases product with
    | none => simp [verify_db_stage]
    | some p =>
      simp only [version_gate_passes] at hver
      by_cases hpe : p.isEmpty
      · simp [hpe, verify_db_stage]
      · simp only [hpe, Bool.false_or] at hver
        simp [hpe, hver, verify_db_stage]
  exact ⟨hmain, by rw [hmain]⟩

/-- C5 witness: a well-formed key and an up-to-date client, with the storage
layer down. -/
theorem verify_license_fail_open_witness :
    (verify_license 0 "SAINT-x-y" (some "HW") (some "saints-gen")
        (some "2.5.9") false [] =
      ({ valid := true, reason := "db_error" }, []) ∧
    (verify_license 0 "SAINT-x-y" (some "HW") (some "saints-gen")
        (some "2.5.9") false []).1.valid = true) :=
  verify_license_fail_open 0 "SAINT-x-y" (some "HW") (some "saints-gen")
    (some "2.5.9") [] (by decide) (by decide)

/-! ## C6 — first-bind-wins -/

/-- Python truthiness normalization of an optional string parameter. -/
def normalizeOptStr (o : Option String) : Option String :=
  match o with
  | some x => if x.isEmpty then none else some x
  | none => none

/-- Does the row survive the `if product and row["product"] != product`
check? -/
def product_matches (product : Option String) (row : License) : Bool :=
  match normalizeOptStr product with
  | some p => row.product == p
  | none => true

/-- The `UPDATE licenses SET hwid = $1 WHERE license_key = $2` of the
first-bind branch. -/
def bindHwid (key h : String) (s : List License) : List License :=
  s.map (fun l => if l.license_key == key then { l with hwid := some h } else l)

theorem verify_license_to_db_stage (now : ℚ) (key : String)
    (hwid product version : Option String) (dbOk : Bool) (s : List License)
    (hkey : verify_format_ok key = true)
    (hver : version_gate_passes product version = true) :
    verify_license now key hwid product version dbOk s =
      verify_db_stage now key (normalizeOptStr hwid) (normalizeOptStr product)
        dbOk s := by
  simp only [verify_format_ok, Bool.and_eq_true, Bool.not_eq_true'] at hkey
  unfold verify_license
  rw [if_neg (by simp [hkey.1, hkey.2])]
  cases product with
  | none => simp [normalizeOptStr]
  | some p =>
    simp only [version_gate_passes] at hver
    by_cases hpe : p.isEmpty
    · simp [hpe, normalizeOptStr]
    · simp only [hpe, Bool.false_or] at hver
      simp [hpe, hver, normalizeOptStr]

theorem bindHwid_find? (key h : String) (s : List License) :
    (bindHwid key h s).find? (fun l => l.license_key == key) =
      (s.find? (fun l => l.license_key == key)).map
        (fun l => if l.license_key == key then { l with hwid := some h } else l) := by
  unfold bindHwid
  rw [List.find?_map]
  have hcomp : ((fun l : License => l.license_key == key) ∘ fun l =>
      if (l.license_key == key) = true then { l with hwid := some h } else l) =
      (fun l : License => l.license_key == key) := by
    funext l
    by_cases hl : (l.license_key == key) = true
    · have he : l.license_key = key := by simpa using hl
      simp [he]
    · have he : ¬ l.license_key = key := by simpa using hl
      simp [he]
  rw [hcomp]

/-- C6: first-bind-wins at the `/verify` endpoint, for a request that passes
the pre-checks and reaches an otherwise-valid license row (present, matching
product, not revoked, not expired). (a) With a fingerprint and an unbound
row the call succeeds (`activated`, `bound`) and stores that fingerprint as
the row's `hwid`; (b) with a row bound to a different fingerprint it fails
with `hwid_mismatch` and mutates nothing; (c) with the same fingerprint it
succeeds with no mutation; (d) without a fingerprint the binding check is
skipped entirely. -/
theorem verify_license_first_bind_wins (now : ℚ) (key : String)
    (product version : Option String) (s : List License) (row : License)
    (hkey : verify_format_ok key = true)
    (hver : version_gate_passes product version = true)
    (hfind : s.find? (fun l => l.license_key == key) = some row)
    (hprod : product_matches product row = true)
    (hrev : row.revoked = 0)
    (hexp : ¬ row.expires_at < now) :
    (∀ h : String, h.isEmpty = false → row.hwid = none →
      verify_license now key (some h) product version true s =
        ({ valid := true, reason := "activated", bound := true },
         bindHwid key h s) ∧
      (bindHwid key h s).find? (fun l => l.license_key == key) =
        some { row with hwid := some h }) ∧
    (∀ h stored : String, h.isEmpty = false → row.hwid = some stored →
      stored ≠ h →
      verify_license now key (some h) product version true s =
        ({ valid := false, reason := "hwid_mismatch" }, s)) ∧
    (∀ h : String, h.isEmpty = false → row.hwid = some h →
      verify_license now key (some h) product version true s =
        ({ valid := true, reason := "active" }, s)) ∧
    (verify_license now key none product version true s =
      ({ valid := true, reason := "active" }, s)) := by
  have hkeyrow : row.license_key = key := find?_eq_some_key hfind
  have hpm : (match normalizeOptStr product with
      | some p => row.product != p
      | none => false) = false := by
    simp only [product_matches] at hprod
    cases hp : normalizeOptStr product with
    | none => simp
    | some p => simp_all
  refine ⟨fun h hne hunbound => ?_, fun h stored hne hbound hdiff => ?_,
    fun h hne hbound => ?_, ?_⟩
  · have hnorm : normalizeOptStr (some h) = some h := by
      simp [normalizeOptStr, hne]
    rw [verify_license_to_db_stage now key (some h) product version true s hkey hver,
      hnorm]
    constructor
    · unfold verify_db_stage
      rw [hfind]
      simp only [hpm, hrev, hunbound]
      simp [hexp, bindHwid]
    · rw [bindHwid_find?, hfind]
      simp [hkeyrow]
  · have hnorm : normalizeOptStr (some h) = some h := by
      simp [normalizeOptStr, hne]
    rw [verify_license_to_db_stage now key (some h) product version true s hkey hver,
      hnorm]
    unfold verify_db_stage
    rw [hfind]
    simp only [hpm, hrev, hbound]
    simp [hexp, hdiff]
  · have hnorm : normalizeOptStr (some h) = some h := by
      simp [normalizeOptStr, hne]
    rw [verify_license_to_db_stage now key (some h) product version true s hkey hver,
      hnorm]
    unfold verify_db_stage
    rw [hfind]
    simp only [hpm, hrev, hbound]
    simp [hexp]
  · rw [verify_license_to_db_stage now key none product version true s hkey hver]
    unfold verify_db_stage
    rw [hfind]
    simp only [hpm, hrev]
    simp [hexp, normalizeOptStr]

def licC6unbound : License :=
  { licBase with license_key := "SAINT-abc-def", expires_at := 100 }

def licC6bound : License :=
  { licC6unbound with hwid := some "HW1" }

/-- C6 witness: at `now = 50`, bind `HW1` to an unbound license, reject `HW2`
against a license bound to `HW1`, accept `HW1` again, and skip the check when
no fingerprint is sent. -/
theorem verify_license_first_bind_wins_witness :
    (verify_license 50 "SAINT-abc-def" (some "HW1") none none true
        [licC6unbound] =
      ({ valid := true, reason := "activated", bound := true },
       bindHwid "SAINT-abc-def" "HW1" [licC6unbound])) ∧
    (verify_license 50 "SAINT-abc-def" (some "HW2") none none true
        [licC6bound] =
      ({ valid := false, reason := "hwid_mismatch" }, [licC6bound])) ∧
    (verify_license 50 "SAINT-abc-def" (some "HW1") none none true
        [licC6bound] =
      ({ valid := true, reason := "active" }, [licC6bound])) ∧
    (verify_license 50 "SAINT-abc-def" none none none true [licC6unbound] =
      ({ valid := true, reason := "active" }, [licC6unbound])) := by
  have t1 := verify_license_first_bind_wins 50 "SAINT-abc-def" none none
    [licC6unbound] licC6unbound (by decide) (by decide) (by decide) (by decide)
    (by decide) (by decide)
  have t2 := verify_license_first_bind_wins 50 "SAINT-abc-def" none none
    [licC6bound] licC6bound (by decide) (by decide) (by decide) (by decide)
    (by decide) (by decide)
  exact ⟨(t1.1 "HW1" (by decide) (by decide)).1,
    t2.2.1 "HW2" "HW1" (by decide) (by decide) (by decide),
    t2.2.2.1 "HW1" (by decide) (by decide),
    t1.2.2.2⟩

/-! ## C7 — notification attempt cap -/

/-- The per-row effect of `mark_notification_failed`'s `UPDATE`. -/
def failUpd (notificationId : Nat) (error : Option String) (now : ℚ)
    (r : NotificationRec) : NotificationRec :=
  if r.id == notificationId then
    { r with delivery_attempts := r.delivery_attempts + 1,
             last_attempt_at := some now, error_message := error }
  else r

theorem mark_notification_failed_eq_map (notificationId : Nat)
    (error : Option String) (now : ℚ) (t : List NotificationRec) :
    mark_notification_failed notificationId error now t =
      t.map (failUpd notificationId error now) := rfl

theorem failUpd_id (nid : Nat) (err : Option String) (now : ℚ)
    (r : NotificationRec) : (failUpd nid err now r).id = r.id := by
  unfold failUpd
  split <;> rfl

theorem failUpd_delivered (nid : Nat) (err : Option String) (now : ℚ)
    (r : NotificationRec) :
    (failUpd nid err now r).delivered = r.delivered := by
  unfold failUpd
  split <;> rfl

theorem failUpd_pow_id (nid : Nat) (err : Option String) (now : ℚ)
    (n : Nat) (r : NotificationRec) :
    ((failUpd nid err now)^[n] r).id = r.id := by
  induction n generalizing r with
  | zero => rfl
  | succ m ih =>
    rw [Function.iterate_succ_apply]
    rw [ih, failUpd_id]

theorem failUpd_pow_delivered (nid : Nat) (err : Option String) (now : ℚ)
    (n : Nat) (r : NotificationRec) :
    ((failUpd nid err now)^[n] r).delivered = r.delivered := by
  induction n generalizing r with
  | zero => rfl
  | succ m ih =>
    rw [Function.iterate_succ_apply]
    rw [ih, failUpd_delivered]

theorem failUpd_eq_of_id (nid : Nat) (err : Option String) (now : ℚ)
    (r : NotificationRec) (hid : r.id = nid) :
    failUpd nid err now r =
      { r with delivery_attempts := r.delivery_attempts + 1,
               last_attempt_at := some now, error_message := err } := by
  simp [failUpd, hid]

theorem failUpd_pow_attempts (nid : Nat) (err : Option String) (now : ℚ)
    (r : NotificationRec) (hid : r.id = nid) (n : Nat) :
    ((failUpd nid err now)^[n] r).delivery_attempts =
      r.delivery_attempts + n := by
  induction n with
  | zero => rfl
  | succ m ih =>
    have hid2 : ((failUpd nid err now)^[m] r).id = nid := by
      rw [failUpd_pow_id]; exact hid
    rw [Function.iterate_succ_apply', failUpd_eq_of_id nid err now _ hid2]
    simp [ih]
    omega

theorem failUpd_pow_succ_eq (nid : Nat) (err : Option String) (now : ℚ)
    (r : NotificationRec) (hid : r.id = nid) (n : Nat) :
    (failUpd nid err now)^[n + 1] r =
      { r with delivery_attempts := r.delivery_attempts + (n + 1),
               last_attempt_at := some now, error_message := err } := by
  induction n with
  | zero => simp [failUpd, hid]
  | succ m ih =>
    rw [Function.iterate_succ_apply', ih,
      failUpd_eq_of_id nid err now _ (by exact hid)]
    simp
    omega

theorem mark_failed_pow_eq_map (nid : Nat) (err : Option String) (now : ℚ)
    (n : Nat) (t : List NotificationRec) :
    (mark_notification_failed nid err now)^[n] t =
      t.map ((failUpd nid err now)^[n]) := by
  induction n generalizing t with
  | zero => simp
  | succ m ih =>
    rw [Function.iterate_succ_apply, mark_notification_failed_eq_map, ih,
      List.map_map, Function.iterate_succ]

/-- C7: starting from a fresh undelivered record (`delivery_attempts = 0`,
unique id in the table), applying `mark_notification_failed` to it 5 times
leaves `delivered = 0` with the failure reason recorded and: (i) no record
with its id is returned by `get_pending_notifications` any more; (ii) the
record, now at 5 attempts, is returned by `get_failed_notifications`,
(iii) exactly once; (iv) below the cap it keeps appearing in the pending
poll (for a limit that covers the table); (v) pending polls are ordered
oldest-first (`created_at` ascending). -/
theorem notification_attempt_cap (t : List NotificationRec)
    (r : NotificationRec) (err : Option String) (now : ℚ) (limit : Nat)
    (hfil : t.filter (fun x => x.id == r.id) = [r])
    (hdel : r.delivered = 0) (hatt : r.delivery_attempts = 0)
    (hlim : t.length ≤ limit) :
    (∀ x ∈ get_pending_notifications limit
        ((mark_notification_failed r.id err now)^[5] t), ¬ x.id = r.id) ∧
    ({ r with delivery_attempts := 5, last_attempt_at := some now,
              error_message := err } ∈
      get_failed_notifications ((mark_notification_failed r.id err now)^[5] t)) ∧
    ((get_failed_notifications
        ((mark_notification_failed r.id err now)^[5] t)).countP
      (fun x => x.id == r.id) = 1) ∧
    (∀ k, k < 5 → (failUpd r.id err now)^[k] r ∈
      get_pending_notifications limit
        ((mark_notification_failed r.id err now)^[k] t)) ∧
    (∀ u : List NotificationRec,
      List.Sorted notifCreatedLe (get_pending_notifications limit u)) := by
  have hrt : r ∈ t := by
    have hmem : r ∈ t.filter (fun x => x.id == r.id) := by rw [hfil]; simp
    exact List.mem_of_mem_filter hmem
  have ht5 := mark_failed_pow_eq_map r.id err now 5 t
  have hr5 : (failUpd r.id err now)^[5] r =
      { r with delivery_attempts := 5, last_attempt_at := some now,
               error_message := err } := by
    have h := failUpd_pow_succ_eq r.id err now r rfl 4
    rw [h, hatt]
  have hfil5 : (t.map ((failUpd r.id err now)^[5])).filter
      (fun x => x.id == r.id) = [(failUpd r.id err now)^[5] r] := by
    rw [List.filter_map]
    have hp : ((fun x : NotificationRec => x.id == r.id) ∘
        (failUpd r.id err now)^[5]) = fun x => x.id == r.id := by
      funext x
      have hx := failUpd_pow_id r.id err now 5 x
      simp only [Function.comp_apply]
      rw [hx]
    rw [hp, hfil]
    rfl
  refine ⟨?_, ?_, ?_, ?_, ?_⟩
  · intro x hx hxid
    unfold get_pending_notifications at hx
    have hx1 := List.mem_of_mem_take hx
    rw [List.mem_insertionSort] at hx1
    obtain ⟨hx3, hx4⟩ := List.mem_filter.mp hx1
    rw [ht5] at hx3
    obtain ⟨y, hy, hyx⟩ := List.mem_map.mp hx3
    have hyid : y.id = r.id := by
      rw [← hxid, ← hyx, failUpd_pow_id]
    have hyatt : x.delivery_attempts = y.delivery_attempts + 5 := by
      rw [← hyx, failUpd_pow_attempts r.id err now y hyid]
    simp only [Bool.and_eq_true, decide_eq_true_eq] at hx4
    omega
  · unfold get_failed_notifications
    rw [ht5, List.mem_insertionSort, ← hr5]
    refine List.mem_filter.mpr ⟨List.mem_map_of_mem _ hrt, ?_⟩
    have h1 := failUpd_pow_delivered r.id err now 5 r
    have h2 := failUpd_pow_attempts r.id err now r rfl 5
    simp only [h1, hdel, h2, hatt, Bool.and_eq_true, decide_eq_true_eq]
    exact ⟨rfl, by omega⟩
  · unfold get_failed_notifications
    rw [ht5]
    rw [(List.perm_insertionSort _ _).countP_eq]
    rw [List.countP_filter]
    have hswap : (t.map ((failUpd r.id err now)^[5])).countP
        (fun a => (a.id == r.id) &&
          (a.delivered == 0 && decide (5 ≤ a.delivery_attempts))) =
        (t.map ((failUpd r.id err now)^[5])).countP
          (fun a => (a.delivered == 0 && decide (5 ≤ a.delivery_attempts)) &&
            (a.id == r.id)) := by
      apply List.countP_congr
      intro a _
      rw [Bool.and_comm]
    rw [hswap, ← List.countP_filter, hfil5, hr5]
    have h1 := failUpd_pow_delivered r.id err now 5 r
    simp [hdel]
  · intro k hk
    rw [mark_failed_pow_eq_map]
    unfold get_pending_notifications
    have hlen : (List.insertionSort notifCreatedLe
        ((t.map ((failUpd r.id err now)^[k])).filter
          (fun x => x.delivered == 0 &&
            decide (x.delivery_attempts < 5)))).length ≤ limit := by
      rw [(List.perm_insertionSort _ _).length_eq]
      calc ((t.map ((failUpd r.id err now)^[k])).filter _).length
          ≤ (t.map ((failUpd r.id err now)^[k])).length :=
            List.length_filter_le _ _
        _ = t.length := List.length_map _ _
        _ ≤ limit := hlim
    rw [List.take_of_length_le hlen, List.mem_insertionSort]
    refine List.mem_filter.mpr ⟨List.mem_map_of_mem _ hrt, ?_⟩
    have h1 := failUpd_pow_delivered r.id err now k r
    have h2 := failUpd_pow_attempts r.id err now r rfl k
    simp only [h1, hdel, h2, hatt, Bool.and_eq_true, decide_eq_true_eq]
    exact ⟨rfl, by omega⟩
  · intro u
    unfold get_pending_notifications
    exact List.Pairwise.sublist (List.take_sublist _ _)
      (List.sorted_insertionSort _ _)

def notifR1 : NotificationRec :=
  { id := 1, discord_id := "100", license_key := "K", expires_at := 0,
    product := "saints-gen", customer_name := none, email := none,
    order_number := none, created_at := 10, delivered := 0,
    delivery_attempts := 0, last_attempt_at := none, error_message := none }

def notifR2 : NotificationRec :=
  { notifR1 with id := 2, created_at := 5 }

/-- C7 witness: a two-record table; after 5 failures record 1 is out of the
pending poll and counted exactly once by the failed query. -/
theorem notification_attempt_cap_witness :
    ([notifR1, notifR2].filter (fun x => x.id == notifR1.id) = [notifR1]) ∧
    (∀ x ∈ get_pending_notifications 10
        ((mark_notification_failed notifR1.id (some "boom") 99)^[5]
          [notifR1, notifR2]), ¬ x.id = notifR1.id) ∧
    ((get_failed_notifications
        ((mark_notification_failed notifR1.id (some "boom") 99)^[5]
          [notifR1, notifR2])).countP (fun x => x.id == notifR1.id) = 1) := by
  have h := notification_attempt_cap [notifR1, notifR2] notifR1 (some "boom")
    99 10 (by decide) (by decide) (by decide) (by decide)
  exact ⟨by decide, h.1, h.2.2.1⟩

/-! ## C1 — exchange rollback -/

def srcLic : License :=
  { licBase with license_key := "SRC", product := "saints-shot",
                 expires_at := 864000 }

/-- C1: the create-path rollback of `ExchangeConfirmView.confirm` is broken.
Concrete run at `now = 0`: the owner's only license is `SRC`
(`saints-shot`, expiring at day 10); they exchange 5 days
(432000 s) with no existing target license, and the create step fails
(the freshly generated key collides, `add_license` returns `False`). The
debit of 5 days succeeded, so the claimed compensation should restore the
source to day 10 — instead the handler hits the undefined name
`source_days_to_add` (a `NameError`): the call dies and the source license
stays debited at day 5. -/
theorem exchange_create_failure_loses_debit :
    exchange_confirm 0 "100" "U" (some "SRC") 432000 288000 none "saintx"
        "SRC" [srcLic] =
      (.error .nameError, [{ srcLic with expires_at := 432000 }]) ∧
    ({ srcLic with expires_at := 432000 }).expires_at ≠ srcLic.expires_at := by
  have hext : extend_license 0 "SRC" (-(432000 / 86400)) [srcLic] =
      (some 432000, [{ srcLic with expires_at := 432000 }]) := by
    unfold extend_license
    have hfind : List.find? (fun l => l.license_key == "SRC") [srcLic] =
        some srcLic := by decide
    rw [hfind]
    have hneg : ¬ (0 : ℚ) < -(432000 / 86400) := by norm_num
    simp only [hneg, if_false]
    have harith : srcLic.expires_at + -(432000 / 86400) * 86400 = 432000 := by
      norm_num [srcLic, licBase]
    rw [harith]
    simp [srcLic, licBase]
  have hadd : add_license "SRC" "100" "U" (0 + 288000) "saintx" none 0
      [{ srcLic with expires_at := 432000 }] =
      (false, [{ srcLic with expires_at := 432000 }]) := by
    unfold add_license
    rw [if_pos (by decide)]
  constructor
  · unfold exchange_confirm
    dsimp only []
    rw [hext]
    unfold exchange_target_step
    dsimp only []
    rw [hadd]
    simp
  · simp [srcLic, licBase]

/-! ## C2 — token round trip -/

/-- C2: the round trip is broken whenever the payload's base64url encoding
contains the delimiter `'-'` (the url-safe alphabet maps value 62 to `'-'`,
e.g. when the owner name puts a `'~'` or `'>'` byte at an offset ≡ 2 mod 3):
`verify_license_key` then splits the freshly issued key into more than three
parts and answers `(False, None, "Invalid key format")` at every
verification time `t`, even before `expiresAt`. -/
theorem token_with_dash_in_payload_fails_format (secretKey discordId : String)
    (days : Int) (discordName avatarUrl : String) (now t : ℚ) (nonce : String)
    (hdash : '-' ∈ licensePayloadB64 discordId discordName days avatarUrl now
      nonce) :
    verify_license_key secretKey t
      (generate_license_key secretKey discordId days discordName avatarUrl now
        nonce).1 =
      (false, none, "Invalid key format") := by
  have hkey : (generate_license_key secretKey discordId days discordName
      avatarUrl now nonce).1 =
      String.mk ("SAINT-".data ++
        licensePayloadB64 discordId discordName days avatarUrl now nonce ++
        '-' :: hmacSha256Hex16 secretKey.data
          (licensePayloadB64 discordId discordName days avatarUrl now nonce)) :=
    rfl
  rw [hkey]
  have hdata : (String.mk ("SAINT-".data ++
      licensePayloadB64 discordId discordName days avatarUrl now nonce ++
      '-' :: hmacSha256Hex16 secretKey.data
        (licensePayloadB64 discordId discordName days avatarUrl now nonce))).data =
      "SAINT-".data ++
        licensePayloadB64 discordId discordName days avatarUrl now nonce ++
        '-' :: hmacSha256Hex16 secretKey.data
          (licensePayloadB64 discordId discordName days avatarUrl now nonce) :=
    rfl
  have hpre : "SAINT-".data.isPrefixOf ("SAINT-".data ++
      licensePayloadB64 discordId discordName days avatarUrl now nonce ++
      '-' :: hmacSha256Hex16 secretKey.data
        (licensePayloadB64 discordId discordName days avatarUrl now nonce)) =
      true := by
    rw [List.append_assoc, List.isPrefixOf_iff_prefix]
    exact List.prefix_append _ _
  have hcount : 3 ≤ ("SAINT-".data ++
      licensePayloadB64 discordId discordName days avatarUrl now nonce ++
      '-' :: hmacSha256Hex16 secretKey.data
        (licensePayloadB64 discordId discordName days avatarUrl now nonce)).count
        '-' := by
    rw [List.count_append, List.count_append]
    have h1 : ("SAINT-".data.count '-') = 1 := by decide
    have h2 : 0 < (licensePayloadB64 discordId discordName days avatarUrl now
        nonce).count '-' := List.count_pos_iff.mpr hdash
    have h3 : 0 < ('-' :: hmacSha256Hex16 secretKey.data
        (licensePayloadB64 discordId discordName days avatarUrl now
          nonce)).count '-' := by
      simp [List.count_cons]
    omega
  have hlen : (pySplitDash ("SAINT-".data ++
      licensePayloadB64 discordId discordName days avatarUrl now nonce ++
      '-' :: hmacSha256Hex16 secretKey.data
        (licensePayloadB64 discordId discordName days avatarUrl now
          nonce))).length ≠ 3 := by
    rw [pySplitDash_length]
    omega
  unfold verify_license_key
  dsimp only
  rw [if_neg (by simp [hpre])]
  rcases hsplit : pySplitDash ("SAINT-".data ++
      licensePayloadB64 discordId discordName days avatarUrl now nonce ++
      '-' :: hmacSha256Hex16 secretKey.data
        (licensePayloadB64 discordId discordName days avatarUrl now nonce))
    with _ | ⟨p0, _ | ⟨p1, _ | ⟨p2, _ | ⟨p3, rest⟩⟩⟩⟩
  · rfl
  · rfl
  · rfl
  · rw [hsplit] at hlen
    simp at hlen
  · rfl

/-- C2 witness: secret `topsecret`, owner `123456789012345678` named
`xx~User`, 30 days from `now = 1760227200`, nonce `0123456789abcdef`,
no avatar. The `'~'` of the name lands at byte offset ≡ 2 (mod 3) of the
payload JSON, so its base64url encoding contains `'-'` and the freshly
issued key fails verification at `t = 1760227300`, far before its
`exp = 1762819200`. -/
theorem token_with_dash_in_payload_fails_format_witness :
    ('-' ∈ licensePayloadB64 "123456789012345678" "xx~User" 30 "" 1760227200
      "0123456789abcdef") ∧
    verify_license_key "topsecret" 1760227300
      (generate_license_key "topsecret" "123456789012345678" 30 "xx~User" ""
        1760227200 "0123456789abcdef").1 =
      (false, none, "Invalid key format") := by
  have hq : licenseExpiresAt 1760227200 30 = ((1762819200 : ℤ) : ℚ) := by
    unfold licenseExpiresAt
    norm_num
  have hexp : pyIntTrunc (licenseExpiresAt 1760227200 30) = 1762819200 := by
    rw [hq]
    unfold pyIntTrunc
    rw [if_pos (by norm_num), Int.floor_intCast]
  have hdash : '-' ∈ licensePayloadB64 "123456789012345678" "xx~User" 30 ""
      1760227200 "0123456789abcdef" := by
    unfold licensePayloadB64
    rw [hexp]
    decide
  exact ⟨hdash, token_with_dash_in_payload_fails_format "topsecret"
    "123456789012345678" 30 "xx~User" "" 1760227200 1760227300
    "0123456789abcdef" hdash⟩

/-! ## C9 — expiry side effects fire at most once -/

/-- The per-row effect of `mark_expiry_notified`'s `UPDATE`. -/
def setExpiryFlag (k : String) (x : License) : License :=
  if x.license_key == k then { x with expiry_notified := 1 } else x

theorem mark_expiry_notified_eq_map (k : String) (s : List License) :
    mark_expiry_notified k s = s.map (setExpiryFlag k) := rfl

theorem setExpiryFlag_key (k : String) (x : License) :
    (setExpiryFlag k x).license_key = x.license_key := by
  unfold setExpiryFlag
  split <;> rfl

theorem setExpiryFlag_of_eq (k : String) (x : License)
    (h : x.license_key = k) :
    setExpiryFlag k x = { x with expiry_notified := 1 } := by
  simp [setExpiryFlag, h]

theorem setExpiryFlag_of_ne (k : String) (x : License)
    (h : ¬ x.license_key = k) : setExpiryFlag k x = x := by
  simp [setExpiryFlag, h]

theorem foldl_mark_expiry (sel : List License) (s : List License) :
    sel.foldl (fun acc l => mark_expiry_notified l.license_key acc) s =
      s.map (fun x =>
        if x.license_key ∈ sel.map (fun l => l.license_key) then
          { x with expiry_notified := 1 } else x) := by
  induction sel generalizing s with
  | nil => simp
  | cons l0 rest ih =>
    simp only [List.foldl_cons]
    rw [ih (mark_expiry_notified l0.license_key s),
      mark_expiry_notified_eq_map, List.map_map]
    apply List.map_congr_left
    intro x _
    simp only [Function.comp_apply]
    by_cases h0 : x.license_key = l0.license_key
    · rw [setExpiryFlag_of_eq _ _ h0]
      have hkproj : ({ x with expiry_notified := 1 } : License).license_key =
        x.license_key := rfl
      have hidem : ({ ({ x with expiry_notified := 1 } : License) with
          expiry_notified := 1 } : License) = { x with expiry_notified := 1 } :=
        rfl
      simp only [hkproj, hidem, ite_self]
      rw [if_pos (by rw [List.map_cons, h0]; exact List.mem_cons_self _ _)]
    · rw [setExpiryFlag_of_ne _ _ h0]
      by_cases hm : x.license_key ∈ rest.map (fun l => l.license_key)
      · rw [if_pos hm,
          if_pos (by rw [List.map_cons]; exact List.mem_cons_of_mem _ hm)]
      · rw [if_neg hm, if_neg (by
          rw [List.map_cons]
          simp only [List.mem_cons]
          push_neg
          exact ⟨h0, hm⟩)]

theorem check_expired_post (hook : License → Bool) (now : ℚ)
    (s : List License) :
    (check_expired_licenses hook now s).1 = s.map (fun x =>
      if x.license_key ∈ (check_expired_licenses hook now s).2 then
        { x with expiry_notified := 1 } else x) := by
  unfold check_expired_licenses
  exact foldl_mark_expiry _ s

/-- All rows holding key `k` have been expiry-notified. -/
def expiryKeyFlagged (k : String) (s : List License) : Prop :=
  ∀ row ∈ s, row.license_key = k → row.expiry_notified = 1

theorem expiry_flagged_not_selected (k : String) (now : ℚ) (s : List License)
    (hf : expiryKeyFlagged k s) :
    k ∉ (get_newly_expired_licenses now s).map (fun l => l.license_key) := by
  intro hmem
  obtain ⟨l, hl, hlk⟩ := List.mem_map.mp hmem
  obtain ⟨hls, hcond⟩ := List.mem_filter.mp hl
  simp only [Bool.and_eq_true, beq_iff_eq] at hcond
  have := hf l hls hlk
  omega

theorem expiry_flagged_preserved (k : String) (hook : License → Bool)
    (now : ℚ) (s : List License) (hf : expiryKeyFlagged k s) :
    expiryKeyFlagged k (check_expired_licenses hook now s).1 := by
  rw [check_expired_post]
  intro row hrow hk
  obtain ⟨x, hx, hxe⟩ := List.mem_map.mp hrow
  by_cases hm : x.license_key ∈ (check_expired_licenses hook now s).2
  · rw [if_pos hm] at hxe
    rw [← hxe]
  · rw [if_neg hm] at hxe
    subst hxe
    exact hf x hx hk

theorem expiry_selected_flagged (hook : License → Bool) (now : ℚ)
    (s : List License) (l : License)
    (hl : l ∈ get_newly_expired_licenses now s) :
    expiryKeyFlagged l.license_key (check_expired_licenses hook now s).1 := by
  rw [check_expired_post]
  intro row hrow hk
  obtain ⟨x, hx, hxe⟩ := List.mem_map.mp hrow
  have hxk : x.license_key = l.license_key := by
    by_cases hm : x.license_key ∈ (check_expired_licenses hook now s).2
    · rw [if_pos hm] at hxe
      rw [← hxe] at hk
      exact hk
    · rw [if_neg hm] at hxe
      rw [hxe]
      exact hk
  have hm : x.license_key ∈ (check_expired_licenses hook now s).2 := by
    unfold check_expired_licenses
    rw [hxk]
    exact List.mem_map_of_mem _ hl
  rw [if_pos hm] at hxe
  rw [← hxe]

theorem expiry_flagged_no_later_events (k : String)
    (cycles : List ((License → Bool) × ℚ)) (s : List License)
    (hf : expiryKeyFlagged k s) :
    k ∉ (runExpirySweeps cycles s).2 := by
  induction cycles generalizing s with
  | nil => simp [runExpirySweeps]
  | cons c rest ih =>
    unfold runExpirySweeps
    simp only [List.mem_append]
    push_neg
    exact ⟨expiry_flagged_not_selected k c.2 s hf,
      ih _ (expiry_flagged_preserved k c.1 c.2 s hf)⟩

theorem expiry_keys_preserved (hook : License → Bool) (now : ℚ)
    (s : List License) :
    (check_expired_licenses hook now s).1.map (fun l => l.license_key) =
      s.map (fun l => l.license_key) := by
  rw [check_expired_post, List.map_map]
  apply List.map_congr_left
  intro x _
  simp only [Function.comp_apply]
  by_cases hm : x.license_key ∈ (check_expired_licenses hook now s).2
  · rw [if_pos hm]
  · rw [if_neg hm]

theorem run_expiry_count_le_one (k : String)
    (cycles : List ((License → Bool) × ℚ)) (s : List License)
    (hnodup : (s.map (fun l => l.license_key)).Nodup) :
    (runExpirySweeps cycles s).2.count k ≤ 1 := by
  induction cycles generalizing s with
  | nil => simp [runExpirySweeps]
  | cons c rest ih =>
    unfold runExpirySweeps
    rw [List.count_append]
    by_cases hk : k ∈ (check_expired_licenses c.1 c.2 s).2
    · have hsub : (check_expired_licenses c.1 c.2 s).2.Sublist
          (s.map (fun l => l.license_key)) := by
        unfold check_expired_licenses get_newly_expired_licenses
        exact List.Sublist.map _ (List.filter_sublist s)
      have h1 : (check_expired_licenses c.1 c.2 s).2.count k ≤ 1 :=
        List.nodup_iff_count_le_one.mp (List.Nodup.sublist hsub hnodup) k
      obtain ⟨l, hl, hlk⟩ := List.mem_map.mp hk
      have hflag : expiryKeyFlagged k (check_expired_licenses c.1 c.2 s).1 := by
        rw [← hlk]
        exact expiry_selected_flagged c.1 c.2 s l hl
      have h2 : (runExpirySweeps rest (check_expired_licenses c.1 c.2 s).1).2.count
          k = 0 :=
        List.count_eq_zero.mpr (expiry_flagged_no_later_events k rest _ hflag)
      omega
    · have h1 : (check_expired_licenses c.1 c.2 s).2.count k = 0 :=
        List.count_eq_zero.mpr hk
      have h2 := ih (check_expired_licenses c.1 c.2 s).1
        (by rw [expiry_keys_preserved]; exact hnodup)
      omega

/-- C9: expiry side effects fire at most once per license. For any table
whose keys are distinct (the `license_key` primary key): (a) after any cycle
of `check_expired_licenses` — whatever the hook outcomes, the sweep marks
"regardless" — every selected license's row has `expiry_notified = 1`;
(b) a license with `expiry_notified = 1` is never selected by
`get_newly_expired_licenses`; (c) across any sequence of sweep cycles a key
appears at most once among the processed (hook-invoking) events. -/
theorem check_expired_licenses_at_most_once (s : List License)
    (hnodup : (s.map (fun l => l.license_key)).Nodup) :
    (∀ (hook : License → Bool) (now : ℚ) (l : License),
      l ∈ get_newly_expired_licenses now s →
      ∀ row ∈ (check_expired_licenses hook now s).1,
        row.license_key = l.license_key → row.expiry_notified = 1) ∧
    (∀ (now : ℚ) (l : License), l ∈ s → l.expiry_notified = 1 →
      l ∉ get_newly_expired_licenses now s) ∧
    (∀ (cycles : List ((License → Bool) × ℚ)) (k : String),
      (runExpirySweeps cycles s).2.count k ≤ 1) := by
  refine ⟨?_, ?_, ?_⟩
  · intro hook now l hl row hrow hk
    exact expiry_selected_flagged hook now s l hl row hrow hk
  · intro now l hls hflag hl
    obtain ⟨_, hcond⟩ := List.mem_filter.mp hl
    simp only [Bool.and_eq_true, beq_iff_eq] at hcond
    omega
  · intro cycles k
    exact run_expiry_count_le_one k cycles s hnodup

def licExpiredRow : License :=
  { licBase with license_key := "E1", expires_at := 40 }

/-- C9 witness: one expired license, two sweep cycles (one with a failing
hook); its key fires at most once and the row ends up notified. -/
theorem check_expired_licenses_at_most_once_witness :
    ([licExpiredRow, licC6unbound].map (fun l => l.license_key)).Nodup ∧
    (licExpiredRow ∈ get_newly_expired_licenses 50 [licExpiredRow, licC6unbound]) ∧
    (∀ row ∈ (check_expired_licenses (fun _ => false) 50
        [licExpiredRow, licC6unbound]).1,
      row.license_key = licExpiredRow.license_key → row.expiry_notified = 1) ∧
    ((runExpirySweeps [(fun _ => false, 50), (fun _ => true, 60)]
        [licExpiredRow, licC6unbound]).2.count "E1" ≤ 1) := by
  have h := check_expired_licenses_at_most_once [licExpiredRow, licC6unbound]
    (by decide)
  exact ⟨by decide, by decide,
    fun row hrow hk => h.1 (fun _ => false) 50 licExpiredRow (by decide) row hrow hk,
    h.2.2 [(fun _ => false, 50), (fun _ => true, 60)] "E1"⟩

/-! ## C3 — warning sweep (spec-modelled store functions) -/

/-- The per-row effect of `mark_warning_notified`'s `UPDATE`. -/
def setWarnFlag (k : String) (x : License) : License :=
  if x.license_key == k then { x with warning_notified := 1 } else x

theorem mark_warning_notified_eq_map (k : String) (s : List License) :
    mark_warning_notified k s = s.map (setWarnFlag k) := rfl

theorem setWarnFlag_of_eq (k : String) (x : License)
    (h : x.license_key = k) :
    setWarnFlag k x = { x with warning_notified := 1 } := by
  simp [setWarnFlag, h]

theorem setWarnFlag_of_ne (k : String) (x : License)
    (h : ¬ x.license_key = k) : setWarnFlag k x = x := by
  simp [setWarnFlag, h]

theorem foldl_mark_warning (sel : List License) (s : List License) :
    sel.foldl (fun acc l => mark_warning_notified l.license_key acc) s =
      s.map (fun x =>
        if x.license_key ∈ sel.map (fun l => l.license_key) then
          { x with warning_notified := 1 } else x) := by
  induction sel generalizing s with
  | nil => simp
  | cons l0 rest ih =>
    simp only [List.foldl_cons]
    rw [ih (mark_warning_notified l0.license_key s),
      mark_warning_notified_eq_map, List.map_map]
    apply List.map_congr_left
    intro x _
    simp only [Function.comp_apply]
    by_cases h0 : x.license_key = l0.license_key
    · rw [setWarnFlag_of_eq _ _ h0]
      have hkproj : ({ x with warning_notified := 1 } : License).license_key =
        x.license_key := rfl
      have hidem : ({ ({ x with warning_notified := 1 } : License) with
          warning_notified := 1 } : License) = { x with warning_notified := 1 } :=
        rfl
      simp only [hkproj, hidem, ite_self]
      rw [if_pos (by rw [List.map_cons, h0]; exact List.mem_cons_self _ _)]
    · rw [setWarnFlag_of_ne _ _ h0]
      by_cases hm : x.license_key ∈ rest.map (fun l => l.license_key)
      · rw [if_pos hm,
          if_pos (by rw [List.map_cons]; exact List.mem_cons_of_mem _ hm)]
      · rw [if_neg hm, if_neg (by
          rw [List.map_cons]
          simp only [List.mem_cons]
          push_neg
          exact ⟨h0, hm⟩)]

theorem check_expiring_post (hook : License → Bool) (now : ℚ)
    (s : List License) :
    (check_expiring_soon hook now s).1 = s.map (fun x =>
      if x.license_key ∈ (check_expiring_soon hook now s).2 then
        { x with warning_notified := 1 } else x) := by
  unfold check_expiring_soon
  exact foldl_mark_warning _ s

/-- All rows holding key `k` have been warning-notified. -/
def warnKeyFlagged (k : String) (s : List License) : Prop :=
  ∀ row ∈ s, row.license_key = k → row.warning_notified = 1

theorem warn_flagged_not_in_events (k : String) (hook : License → Bool)
    (now : ℚ) (s : List License) (hf : warnKeyFlagged k s) :
    k ∉ (check_expiring_soon hook now s).2 := by
  intro hmem
  unfold check_expiring_soon at hmem
  obtain ⟨l, hl, hlk⟩ := List.mem_map.mp hmem
  obtain ⟨hls, hcond⟩ := List.mem_filter.mp hl
  simp only [Bool.and_eq_true, beq_iff_eq] at hcond
  have := hf l hls hlk
  omega

theorem warn_flagged_preserved (k : String) (hook : License → Bool)
    (now : ℚ) (s : List License) (hf : warnKeyFlagged k s) :
    warnKeyFlagged k (check_expiring_soon hook now s).1 := by
  rw [check_expiring_post]
  intro row hrow hk
  obtain ⟨x, hx, hxe⟩ := List.mem_map.mp hrow
  by_cases hm : x.license_key ∈ (check_expiring_soon hook now s).2
  · rw [if_pos hm] at hxe
    rw [← hxe]
  · rw [if_neg hm] at hxe
    subst hxe
    exact hf x hx hk

theorem warn_selected_flagged (hook : License → Bool) (now : ℚ)
    (s : List License) (l : License)
    (hl : l ∈ get_licenses_expiring_soon now 3 s) :
    warnKeyFlagged l.license_key (check_expiring_soon hook now s).1 := by
  rw [check_expiring_post]
  intro row hrow hk
  obtain ⟨x, hx, hxe⟩ := List.mem_map.mp hrow
  have hxk : x.license_key = l.license_key := by
    by_cases hm : x.license_key ∈ (check_expiring_soon hook now s).2
    · rw [if_pos hm] at hxe
      rw [← hxe] at hk
      exact hk
    · rw [if_neg hm] at hxe
      rw [hxe]
      exact hk
  have hm : x.license_key ∈ (check_expiring_soon hook now s).2 := by
    unfold check_expiring_soon
    rw [hxk]
    exact List.mem_map_of_mem _ hl
  rw [if_pos hm] at hxe
  rw [← hxe]

theorem warn_flagged_no_later_events (k : String)
    (cycles : List ((License → Bool) × ℚ)) (s : List License)
    (hf : warnKeyFlagged k s) :
    k ∉ (runWarnSweeps cycles s).2 := by
  induction cycles generalizing s with
  | nil => simp [runWarnSweeps]
  | cons c rest ih =>
    unfold runWarnSweeps
    simp only [List.mem_append]
    push_neg
    exact ⟨warn_flagged_not_in_events k c.1 c.2 s hf,
      ih _ (warn_flagged_preserved k c.1 c.2 s hf)⟩

/-- C3: the warning sweep (store side modelled from the spec, see
`get_licenses_expiring_soon`). (1) Every non-revoked license whose expiry
lies between `now` and `now + 3 days` with `warning_notified = 0` is
selected; (2) for each selected license a renew-soon warning event is fired,
its row's `warning_notified` flag is set afterwards — whatever the DM hook
does — and its key is never again among the events of any later sequence of
warning sweeps. -/
theorem check_expiring_soon_warns_once (s : List License) :
    (∀ (now : ℚ) (l : License), l ∈ s →
      now ≤ l.expires_at → l.expires_at ≤ now + 3 * 86400 →
      l.revoked = 0 → l.warning_notified = 0 →
      l ∈ get_licenses_expiring_soon now 3 s) ∧
    (∀ (hook : License → Bool) (now : ℚ) (l : License),
      l ∈ get_licenses_expiring_soon now 3 s →
      l.license_key ∈ (check_expiring_soon hook now s).2 ∧
      (∀ row ∈ (check_expiring_soon hook now s).1,
        row.license_key = l.license_key → row.warning_notified = 1) ∧
      (∀ cycles : List ((License → Bool) × ℚ),
        l.license_key ∉
          (runWarnSweeps cycles (check_expiring_soon hook now s).1).2)) := by
  constructor
  · intro now l hls h1 h2 h3 h4
    refine List.mem_filter.mpr ⟨hls, ?_⟩
    simp only [Bool.and_eq_true, beq_iff_eq, decide_eq_true_eq]
    exact ⟨⟨⟨h1, h2⟩, h3⟩, h4⟩
  · intro hook now l hl
    refine ⟨?_, ?_, ?_⟩
    · unfold check_expiring_soon
      exact List.mem_map_of_mem _ hl
    · exact warn_selected_flagged hook now s l hl
    · intro cycles
      exact warn_flagged_no_later_events l.license_key cycles _
        (warn_selected_flagged hook now s l hl)

def licW : License :=
  { licBase with license_key := "W1", expires_at := 100000 }

/-- C3 witness: at `now = 50` a license expiring at 100000 s (within 3 days)
is selected, warned, marked, and not selected by a later sweep. -/
theorem check_expiring_soon_warns_once_witness :
    (licW ∈ get_licenses_expiring_soon 50 3 [licW]) ∧
    (licW.license_key ∈ (check_expiring_soon (fun _ => false) 50 [licW]).2) ∧
    (∀ row ∈ (check_expiring_soon (fun _ => false) 50 [licW]).1,
      row.license_key = licW.license_key → row.warning_notified = 1) ∧
    (licW.license_key ∉ (runWarnSweeps [(fun _ => true, 120)]
      (check_expiring_soon (fun _ => false) 50 [licW]).1).2) := by
  have h := check_expiring_soon_warns_once [licW]
  have hsel := h.1 50 licW (by decide) (by decide)
    (by norm_num [licW, licBase]) (by decide) (by decide)
  have h2 := h.2 (fun _ => false) 50 licW hsel
  exact ⟨hsel, h2.1, h2.2.1, h2.2.2 [(fun _ => true, 120)]⟩

/-! ## C10 — verification is total and rejects everything else -/

theorem hexDigitChar_ascii (n : Nat) : (hexDigitChar n).toNat < 128 := by
  unfold hexDigitChar
  split <;> decide

theorem bytesToHex_ascii (bs : List Nat) :
    ∀ c ∈ bytesToHex bs, c.toNat < 128 := by
  induction bs with
  | nil => simp [bytesToHex]
  | cons b rest ih =>
    intro c hc
    unfold bytesToHex at hc
    simp only [List.mem_cons] at hc
    rcases hc with h | h | h
    · exact h ▸ hexDigitChar_ascii _
    · exact h ▸ hexDigitChar_ascii _
    · exact ih c h

theorem hmacSha256Hex16_ascii (secret payload : List Char) :
    ∀ c ∈ hmacSha256Hex16 secret payload, c.toNat < 128 := by
  intro c hc
  unfold hmacSha256Hex16 at hc
  exact bytesToHex_ascii _ c (List.mem_of_mem_take hc)

/-- C10: `verify_license_key` is a total function into
`Bool × Option Json × String` (every exception path of the source is caught
and folded into a `False` result), and it answers `is_valid = True` exactly
for well-formed tokens: the key carries the `SAINT-` tag, splits at `'-'`
into exactly three parts, the signature part equals the truncated
HMAC-SHA256 of the payload part, the payload decodes
(base64url / UTF-8 / JSON) to a dict whose `exp` is numeric, and `now` has
not passed `exp`. Every other input yields `is_valid = False`. -/
theorem verify_license_key_valid_iff (secretKey licenseKey : String)
    (now : ℚ) :
    (verify_license_key secretKey now licenseKey).1 = true ↔
      ("SAINT-".data.isPrefixOf licenseKey.data = true ∧
       ∃ p0 pb sig, pySplitDash licenseKey.data = [p0, pb, sig] ∧
         sig = hmacSha256Hex16 secretKey.data pb ∧
         ∃ payload, decodeTokenPayload pb = some payload ∧
         ∃ e, pyExpOf payload = some e ∧ now ≤ e) := by
  constructor
  · intro h
    unfold verify_license_key at h
    by_cases hpre : "SAINT-".data.isPrefixOf licenseKey.data = true
    · rw [if_neg (by simp [hpre])] at h
      rcases hsplit : pySplitDash licenseKey.data
        with _ | ⟨p0, _ | ⟨pb, _ | ⟨sig, _ | ⟨p3, rest⟩⟩⟩⟩ <;> rw [hsplit] at h
      · simp at h
      · simp at h
      · simp at h
      · refine ⟨hpre, p0, pb, sig, rfl, ?_⟩
        dsimp only at h
        rcases hcd : pyCompareDigest sig (hmacSha256Hex16 secretKey.data pb)
          with _ | b <;> rw [hcd] at h
        · simp at h
        · cases b with
          | false => simp at h
          | true =>
            have hsig : sig = hmacSha256Hex16 secretKey.data pb := by
              unfold pyCompareDigest at hcd
              by_cases ha : (sig.all (fun c => c.toNat < 128) &&
                  (hmacSha256Hex16 secretKey.data pb).all
                    (fun c => c.toNat < 128)) = true
              · rw [if_pos ha] at hcd
                have : (sig == hmacSha256Hex16 secretKey.data pb) = true := by
                  injection hcd
                simpa using this
              · rw [if_neg ha] at hcd
                cases hcd
            refine ⟨hsig, ?_⟩
            dsimp only at h
            rcases hdec : decodeTokenPayload pb with _ | payload <;>
              rw [hdec] at h <;> dsimp only at h
            · simp at h
            · refine ⟨payload, rfl, ?_⟩
              rcases hexp : pyExpOf payload with _ | e <;>
                rw [hexp] at h <;> dsimp only at h
              · simp at h
              · refine ⟨e, rfl, ?_⟩
                by_cases hlt : now > e
                · rw [if_pos hlt] at h
                  simp at h
                · exact not_lt.mp hlt
      · simp at h
    · rw [if_pos (by simp [hpre])] at h
      simp at h
  · rintro ⟨hpre, p0, pb, sig, hsplit, hsig, payload, hdec, e, hexp, hle⟩
    unfold verify_license_key
    rw [if_neg (by simp [hpre]), hsplit]
    dsimp only
    have hcd : pyCompareDigest sig (hmacSha256Hex16 secretKey.data pb) =
        some true := by
      unfold pyCompareDigest
      rw [if_pos (by
        rw [Bool.and_eq_true]
        constructor
        · rw [List.all_eq_true]
          intro c hc
          rw [hsig] at hc
          simpa using hmacSha256Hex16_ascii secretKey.data pb c hc
        · rw [List.all_eq_true]
          intro c hc
          simpa using hmacSha256Hex16_ascii secretKey.data pb c hc)]
      rw [hsig]
      simp
    rw [hcd, hdec]
    dsimp only
    rw [hexp]
    dsimp only
    rw [if_neg (not_lt.mpr hle)]
